import Mathlib

/-!
# AirKiss decoder (`airkiss.go`): shallow embedding and verification

The Go decoder is a per-sender state machine fed with `(frameLen, seqNo)`
observations through `Put`.  The embedding below follows `airkiss.go`
function by function.

Modelling conventions

* Go `int` is a 64-bit two's complement integer, modelled by `Int`.  The three
  places where the source adds or subtracts on operands that an observation
  controls (`frameLen -= baseLength`, `window[i-1]+1`, `window[0]-1`) are wrapped
  by `wrapInt`.  The other integer operations of the source work on constants,
  on loop indices and on the fields `totalLength`, `pwdLength` and `seqDataCnt`,
  which never exceed a byte in a decoder built by `New()` and `Put`.
* Go `uint16` is a `Nat` below `65536`; `prev+1` is reduced modulo `65536`.
* Go `byte` is a `Nat` below `256`; a Go `string` is the list of its bytes; a
  `[6]byte` array is a list of six bytes.
* `v & m` on `int` is `Int.land v m` (two's complement on both sides), `x << 4`
  on a nibble is `x * 16`, and `%` on `int` is the truncating `Int.tmod`.
* A Go run-time panic (index or slice out of range, assignment to a nil map,
  close of a closed channel) is the result `none`.
* The channel `done` is modelled by the flag `doneClosed`.
* The map `seqData` is an association list (newest binding first), `none`
  being the nil map of a decoder that never passed the prefix code.
-/

namespace Airkiss

/-! ## Data model -/

/-- The decoder states, `type State int` with its five constants. -/
inductive State where
  | CheckingGuideCode
  | CheckingMagicCode
  | CheckingPrefixCode
  | CheckingSeqData
  | Done
  deriving DecidableEq, Repr

/-- The constant `windowSizeDefault`. -/
def windowSizeDefault : Nat := 4

/-- The constant `windowSizeSeqData`. -/
def windowSizeSeqData : Nat := 6

/-- The struct `AirKiss`. -/
structure AirKiss where
  SSID : List Nat
  SSIDCRC8 : Int
  Password : List Nat
  RandomByte : Nat
  baseLength : Int
  totalLength : Int
  pwdLength : Int
  state : State
  doneClosed : Bool
  seqNo : Nat
  ignoreSeqCnt : Nat
  window : List Int
  seqDataCnt : Int
  seqData : Option (List (Nat × List Nat))
  deriving DecidableEq, Repr

/-- The constructor `New()`: every field has its zero value except
`baseLength = -1`; the window is empty and the channel is open. -/
def New : AirKiss :=
  { SSID := [], SSIDCRC8 := 0, Password := [], RandomByte := 0,
    baseLength := -1, totalLength := 0, pwdLength := 0,
    state := State.CheckingGuideCode, doneClosed := false,
    seqNo := 0, ignoreSeqCnt := 0, window := [],
    seqDataCnt := 0, seqData := none }

/-! ## Integer helpers -/

/-- Wrap-around of 64-bit signed arithmetic. -/
def wrapInt (x : Int) : Int := (x + 2 ^ 63) % 2 ^ 64 - 2 ^ 63

/-- The conversion `byte(x)` of an `int`: its low eight bits. -/
def toByte (x : Int) : Nat := (x % 256).toNat

/-- The expression `int(math.Ceil(float64(t) / 4.00))`.  The float division by
four and the ceiling are exact for `|t| < 2^53`. -/
def ceilDiv4 (t : Int) : Int := -((-t) / 4)

/-! ## `crc8` -/

/-- One pass of the inner loop of `crc8`. -/
def crc8Bit (crc : Nat) : Nat :=
  if crc &&& 0x01 > 0 then (crc >>> 1) ^^^ 0x8c else crc >>> 1

/-- One pass of the outer loop of `crc8`: xor the byte in, then eight bit steps. -/
def crc8Byte (crc b : Nat) : Nat := crc8Bit^[8] (crc ^^^ b)

/-- The function `crc8`. -/
def crc8 (buf : List Nat) : Nat := buf.foldl crc8Byte 0

/-! ## The window -/

/-- The function `isIncreasing`. -/
def isIncreasing : List Int → Bool
  | [] => true
  | [_] => true
  | a :: b :: rest => if wrapInt (a + 1) != b then false else isIncreasing (b :: rest)

/-- The closing loop of `Put`: `window[i-1] = window[i]` for `i = 1 .. len-1`.
The length is kept and the last element stays in place. -/
def shiftWindow : List Int → List Int
  | [] => []
  | [a] => [a]
  | _ :: b :: rest => b :: shiftWindow (b :: rest)

/-- The method `setState`. -/
def setState (ak : AirKiss) (state : State) (ignoreCnt : Nat) : AirKiss :=
  { ak with ignoreSeqCnt := ignoreCnt, state := state, window := [] }

/-- The method `findOrderNumbers`; `window[0]` of an empty window panics. -/
def findOrderNumbers (ak : AirKiss) : Option (Int × Bool) :=
  if isIncreasing ak.window then
    match ak.window with
    | [] => none
    | w0 :: _ => some (wrapInt (w0 - 1), true)
  else some (0, false)

/-- The loop of `getLengthAndCRC8` from position `i` on: `true` when no
position fails `v&0x01f0 != (i+base)<<4`. -/
def tagsOk (base : Nat) : Nat → List Int → Bool
  | _, [] => true
  | i, v :: rest =>
    if Int.land v 0x01f0 != (((i + base) <<< 4 : Nat) : Int) then false
    else tagsOk base (i + 1) rest

/-- The method `getLengthAndCRC8`: the decoder (window cleared on success),
`length`, `crc8` and `ok`.  Reading `window[0..3]` of a shorter window panics. -/
def getLengthAndCRC8 (ak : AirKiss) (base : Nat) : Option (AirKiss × Int × Int × Bool) :=
  if tagsOk base 0 ak.window then
    match ak.window with
    | w0 :: w1 :: w2 :: w3 :: _ =>
      some ({ ak with window := [] },
        Int.land w0 0x000F * 16 + Int.land w1 0x000F,
        Int.land w2 0x000F * 16 + Int.land w3 0x000F, true)
    | _ => none
  else some (ak, 0, 0, false)

/-! ## The map `seqData` -/

/-- The lookup `seqData[k]` with its presence flag (a nil map has no key). -/
def mapGet (m : Option (List (Nat × List Nat))) (k : Nat) : Option (List Nat) :=
  match m with
  | none => none
  | some l => l.lookup k

/-- The read `dat := seqData[k]`: the zero array when the key is absent. -/
def mapGetD (m : Option (List (Nat × List Nat))) (k : Nat) : List Nat :=
  (mapGet m k).getD (List.replicate windowSizeSeqData 0)

/-- The assignment `seqData[k] = v` on a map that is not nil. -/
def mapSet (l : List (Nat × List Nat)) (k : Nat) (v : List Nat) : List (Nat × List Nat) :=
  (k, v) :: l

/-- The closing loop of `getSeqAndData`,
`for i := 0; i < n; i++ { if _, exist := seqData[i]; !exist { return } }`:
`true` when every key below `n` is present. -/
def allPresent (m : Option (List (Nat × List Nat))) (n : Nat) : Bool :=
  (List.range n).all (fun i => (mapGet m i).isSome)

/-! ## `getSeqAndData` -/

/-- One pass of the loop `for i, v := range ak.window` of `getSeqAndData` on
the buffer `tempBuffer`.  The result is `none` for a panic (the write
`tempBuffer[i]` with `i ≥ 6`), `some none` for the early `return` (`ok = false`,
window untouched) and `some (some tb)` when the loop goes on with buffer `tb`. -/
def seqStep (ak : AirKiss) (i : Nat) (v : Int) (tempBuffer : List Nat) :
    Option (Option (List Nat)) :=
  match i with
  | 0 =>
    if Int.land v 0x0180 != 0x0080 then some none
    else some (some (tempBuffer.set 0 (toByte (Int.land v 0x7F))))
  | 1 =>
    if Int.land v 0x0180 != 0x0080 then some none
    else
      let tb := tempBuffer.set 1 (toByte (Int.land v 0x7F))
      if (mapGet ak.seqData (tb.getD 1 0)).isSome || ((tb.getD 1 0 : Nat) : Int) > ak.seqDataCnt then
        some none
      else some (some tb)
  | _ =>
    if ((tempBuffer.getD 1 0 : Nat) : Int) == ak.seqDataCnt - 1
        && ((i : Int) - 2) > Int.tmod ak.totalLength 4 - 1 then
      some (some tempBuffer)
    else if Int.land v 0x0100 != 0x0100 then some none
    else if i < windowSizeSeqData then some (some (tempBuffer.set i (toByte (Int.land v 0xFF))))
    else none

/-- The loop `for i, v := range ak.window` of `getSeqAndData`, from position `i`. -/
def seqLoop (ak : AirKiss) : Nat → List Int → List Nat → Option (Option (List Nat))
  | _, [], tb => some (some tb)
  | i, v :: rest, tb =>
    match seqStep ak i v tb with
    | none => none
    | some none => some none
    | some (some tb1) => seqLoop ak (i + 1) rest tb1

/-- The method `getSeqAndData`: the decoder after the call and `ok`. -/
def getSeqAndData (ak : AirKiss) : Option (AirKiss × Bool) :=
  match seqLoop ak 0 ak.window (List.replicate windowSizeSeqData 0) with
  | none => none
  | some none => some (ak, false)
  | some (some tempBuffer) =>
    let idx : Nat := tempBuffer.getD 1 0
    let e : Int :=
      if (idx : Int) == ak.seqDataCnt - 1 then 2 + Int.tmod ak.totalLength 4
      else (windowSizeSeqData : Int)
    -- the slice `tempBuffer[1:end]` needs `1 ≤ end ≤ 6`
    if e < 1 || e > (windowSizeSeqData : Int) then none
    else if tempBuffer.getD 0 0 != crc8 ((tempBuffer.take e.toNat).drop 1) &&& 0x7F then
      some ({ ak with window := [] }, false)
    else
      match ak.seqData with
      | none => none
      | some l =>
        let ak1 := { ak with seqData := some (mapSet l idx tempBuffer), window := [] }
        if allPresent ak1.seqData ak1.seqDataCnt.toNat then some (ak1, true)
        else some (ak1, false)

/-! ## `parseFrame` and `Put` -/

/-- The reassembly buffer `data` of `parseFrame`: the bytes `dat[2:]` of
`seqData[0], .., seqData[seqDataCnt-1]` appended in order. -/
def assemble (ak : AirKiss) : List Nat :=
  (List.range ak.seqDataCnt.toNat).flatMap (fun i => (mapGetD ak.seqData i).drop 2)

/-- The method `parseFrame`. -/
def parseFrame (ak : AirKiss) : Option AirKiss :=
  match ak.state with
  | State.CheckingMagicCode =>
    match getLengthAndCRC8 ak 0 with
    | none => none
    | some (ak1, totalLength, ssidCrc8, done) =>
      if !done then some ak1
      else
        some (setState { ak1 with totalLength := totalLength, SSIDCRC8 := ssidCrc8 }
          State.CheckingPrefixCode 20)
  | State.CheckingPrefixCode =>
    match getLengthAndCRC8 ak 4 with
    | none => none
    | some (ak1, pwdLength, pwdLengthCrc8, done) =>
      if !done || crc8 [toByte pwdLength] != toByte pwdLengthCrc8 then some ak1
      else
        some (setState { ak1 with
            pwdLength := pwdLength,
            seqDataCnt := ceilDiv4 ak1.totalLength,
            seqData := some [] }
          State.CheckingSeqData 20)
  | State.CheckingSeqData =>
    match getSeqAndData ak with
    | none => none
    | some (ak1, done) =>
      if !done then some ak1
      else
        -- `make([]byte, 0, ak.seqDataCnt*4)` panics on a negative capacity
        if ak1.seqDataCnt * 4 < 0 then none
        else
          let data := assemble ak1
          -- `data[:pwdLength]`, `data[pwdLength]` and `data[pwdLength+1:]`
          if ak1.pwdLength < 0 || ak1.pwdLength > (data.length : Int) then none
          else if ak1.pwdLength ≥ (data.length : Int) then none
          else
            let n := ak1.pwdLength.toNat
            let ak2 := { ak1 with
              Password := data.take n,
              RandomByte := data.getD n 0,
              SSID := data.drop (n + 1) }
            let ak3 := setState ak2 State.Done 0
            -- `close(ak.done)` panics on a closed channel
            if ak3.doneClosed then none else some { ak3 with doneClosed := true }
  | _ =>
    if ak.baseLength < 0 then
      match findOrderNumbers ak with
      | none => none
      | some (baseLength, ok) =>
        if !ok then some ak
        else some (setState { ak with baseLength := baseLength } State.CheckingMagicCode 10)
    else some ak

/-- The window size chosen by the `switch ak.state` of `Put`. -/
def windowSize (state : State) : Nat :=
  match state with
  | State.CheckingSeqData => windowSizeSeqData
  | _ => windowSizeDefault

/-- The method `Put`. -/
def Put (ak : AirKiss) (frameLen : Int) (seqNo : Nat) : Option AirKiss :=
  let prev := ak.seqNo
  let ak := { ak with seqNo := seqNo }
  let reset : Bool := (prev != 0 && (prev + 1) % 65536 != ak.seqNo) || ak.ignoreSeqCnt > 0
  let ak := if reset then { ak with window := [] } else ak
  if reset && ak.ignoreSeqCnt > 0 then
    some { ak with ignoreSeqCnt := ak.ignoreSeqCnt - 1 }
  else
    let frameLen := if ak.baseLength ≥ 0 then wrapInt (frameLen - ak.baseLength) else frameLen
    if ak.window.length < windowSize ak.state then
      let ak := { ak with window := ak.window ++ [frameLen] }
      if ak.window.length < windowSize ak.state then some ak
      else (parseFrame ak).map (fun a => { a with window := shiftWindow a.window })
    else
      let ak := { ak with window := ak.window.set (ak.window.length - 1) frameLen }
      (parseFrame ak).map (fun a => { a with window := shiftWindow a.window })

/-- Feed a list of observations `(frameLen, seqNo)` through `Put`, in order. -/
def feed (ak : AirKiss) : List (Int × Nat) → Option AirKiss
  | [] => some ak
  | (frameLen, seqNo) :: rest =>
    match Put ak frameLen seqNo with
    | none => none
    | some ak1 => feed ak1 rest

/-- A decoder that `New()` followed by `Put` calls that returned can produce.
The observations are a Go `int` and a Go `uint16`. -/
inductive Reachable : AirKiss → Prop
  | init : Reachable New
  | step {s s1 : AirKiss} (frameLen : Int) (seqNo : Nat) :
      Reachable s → -(2 ^ 63) ≤ frameLen → frameLen < 2 ^ 63 → seqNo < 65536 →
      Put s frameLen seqNo = some s1 → Reachable s1

/-! ## The sender

The wire format of the specification (guide, magic, prefix and sequence-data
codes), written from its words: the decoder is run on these streams. -/

/-- Number a list of frame lengths with consecutive sequence numbers
(modulo `2^16`), starting at `n`. -/
def withSeq : Nat → List Int → List (Int × Nat)
  | _, [] => []
  | n, f :: rest => (f, n % 65536) :: withSeq (n + 1) rest

/-- The four guide codes `x, x+1, x+2, x+3` with `x = 1`. -/
def guideCodes : List Nat := [1, 2, 3, 4]

/-- The four codes of a header: position tags `tag .. tag+3` in bits 4..8, and
the nibbles of the two bytes `a` and `b` in bits 0..3. -/
def headerCodes (tag a b : Nat) : List Nat :=
  [(tag <<< 4) + (a >>> 4) % 16, ((tag + 1) <<< 4) + a % 16,
   ((tag + 2) <<< 4) + (b >>> 4) % 16, ((tag + 3) <<< 4) + b % 16]

/-- The magic codes of `total_length` and `ssid_crc8`. -/
def magicCodes (totalLength ssidCrc8 : Nat) : List Nat := headerCodes 0 totalLength ssidCrc8

/-- The prefix codes of `pwd_length`, with `pwd_length_crc8 = crc8([pwd_length])`. -/
def prefixCodes (pwdLength : Nat) : List Nat := headerCodes 4 pwdLength (crc8 [pwdLength])

/-- The six codes `[crc7, index, d0, d1, d2, d3]` of one chunk: bit 8 clear and
bit 7 set on the first two, bit 8 set on the four data codes. -/
def seqGroup (crc7 index d0 d1 d2 d3 : Nat) : List Nat :=
  [0x80 + crc7, 0x80 + index, 0x100 + d0, 0x100 + d1, 0x100 + d2, 0x100 + d3]

/-- The chunk of index `index` carrying the valid bytes `d` (at most four, the
missing ones sent as `0`), with `crc7 = crc8([index, d..]) & 0x7F`. -/
def chunkCodes (index : Nat) (d : List Nat) : List Nat :=
  seqGroup (crc8 (index :: d) &&& 0x7F) index (d.getD 0 0) (d.getD 1 0) (d.getD 2 0) (d.getD 3 0)

/-- The chunks of the payload `D`, from index `index` on. -/
def seqDataCodes : Nat → Nat → List Nat → List Nat
  | 0, _, _ => []
  | _ + 1, _, [] => []
  | fuel + 1, index, d => chunkCodes index (d.take 4) ++ seqDataCodes fuel (index + 1) (d.drop 4)

/-- Frame lengths `base + code`. -/
def framesAt (base : Nat) (codes : List Nat) : List Int :=
  codes.map (fun c => ((base + c : Nat) : Int))

/-- The codes of a session up to the end of the frames the decoder ignores
after the prefix code: guide codes `g`, magic codes, prefix codes, and after
each of the three as many codes `0` as the decoder drops. -/
def headerPhase (g : List Nat) (totalLength ssidCrc8 pwdLength : Nat) : List Nat :=
  g ++ List.replicate 10 0 ++ magicCodes totalLength ssidCrc8 ++ List.replicate 20 0
    ++ prefixCodes pwdLength ++ List.replicate 20 0

/-- The whole transmission of `(password, randomByte, ssid)`, every code sent
as the frame length `base + code`. -/
def senderFrames (base : Nat) (password : List Nat) (randomByte : Nat) (ssid : List Nat) :
    List Int :=
  let payload := password ++ [randomByte] ++ ssid
  framesAt base (headerPhase guideCodes payload.length (crc8 ssid) password.length
    ++ seqDataCodes payload.length 0 payload)

/-- A whole session whose guide frames have the lengths `0, 1, 2, 3`, for the
payload `password = ""`, `random_byte = 7`, `ssid = ""` (`total_length = 1`). -/
def zeroGuideSession : List Int :=
  framesAt 0 (headerPhase [0, 1, 2, 3] 1 0 0 ++ chunkCodes 0 [7])

/-- Every observation of the list is a Go `int` paired with a Go `uint16`. -/
def wellTyped (obs : List (Int × Nat)) : Bool :=
  obs.all (fun o => decide (-(2 ^ 63) ≤ o.1) && decide (o.1 < 2 ^ 63) && decide (o.2 < 65536))

/-! ## The steps of `Put` -/

/-- The code `Put` works with: `frameLen - baseLength` once `baseLength ≥ 0`. -/
def codeOf (baseLength frameLen : Int) : Int :=
  if baseLength ≥ 0 then wrapInt (frameLen - baseLength) else frameLen

/-- The discontinuity test of `Put`: `prev != 0 && prev+1 != seqNo` on `uint16`. -/
def seqBreak (prev seqNo : Nat) : Bool := prev != 0 && (prev + 1) % 65536 != seqNo

/-- The window `Put` hands to `parseFrame`, for a decoder that ignores nothing:
the window (emptied on a discontinuity) with the code appended, or with its
last element replaced when it is full already. -/
def nextWindow (ak : AirKiss) (frameLen : Int) (seqNo : Nat) : List Int :=
  let w := if seqBreak ak.seqNo seqNo then [] else ak.window
  if w.length < windowSize ak.state then w ++ [codeOf ak.baseLength frameLen]
  else w.set (w.length - 1) (codeOf ak.baseLength frameLen)

/-! ## Auxiliary definitions for the statements -/

/-- The data byte `seqStep` leaves at data position `j` of the buffer for a group
of index `idx`: `0` when the position is skipped (last chunk, `j > totalLength%4 - 1`). -/
def keptByte (ak : AirKiss) (idx j d : Nat) : Nat :=
  if ((idx : Int) == ak.seqDataCnt - 1 && ((j : Int) > Int.tmod ak.totalLength 4 - 1)) then 0
  else d

/-- The frame length a sender uses for the code `code` towards a decoder whose
offset is `baseLength`. -/
def frameFor (baseLength : Int) (code : Nat) : Int :=
  if baseLength ≥ 0 then wrapInt ((code : Int) + baseLength) else (code : Int)

/-- The six frames of the group whose record is `r = [crc7, index, d0, d1, d2, d3]`. -/
def recordFrames (baseLength : Int) (r : List Nat) : List Int :=
  (seqGroup (r.getD 0 0) (r.getD 1 0) (r.getD 2 0) (r.getD 3 0) (r.getD 4 0) (r.getD 5 0)).map
    (frameFor baseLength)

/-- The record `r` with bit `b` of its byte at position `p` flipped. -/
def flipBit (r : List Nat) (p b : Nat) : List Nat := r.set p (r.getD p 0 ^^^ 2 ^ b)

/-- The bound `end` of the slice `tempBuffer[1:end]` in `getSeqAndData`. -/
def groupEnd (ak : AirKiss) (idx : Nat) : Int :=
  if (idx : Int) == ak.seqDataCnt - 1 then 2 + Int.tmod ak.totalLength 4 else 6

/-- The buffer `tempBuffer` that the loop of `getSeqAndData` builds from the
codes of the record `[crc7, idx, d0, d1, d2, d3]`. -/
def groupBuffer (ak : AirKiss) (crc7 idx d0 d1 d2 d3 : Nat) : List Nat :=
  [crc7, idx, keptByte ak idx 0 d0, keptByte ak idx 1 d1, keptByte ak idx 2 d2,
    keptByte ak idx 3 d3]

/-- Every record of the map has six bytes (the value type `[6]byte`). -/
def recordsWf (m : Option (List (Nat × List Nat))) : Bool :=
  match m with
  | none => true
  | some l => l.all (fun kv => kv.2.length == windowSizeSeqData)

/-- The decoder `parseFrame` returns when the reassembly succeeds on `a`, the
decoder left by `getSeqAndData`. -/
def reassembled (a : AirKiss) : AirKiss :=
  { a with
    Password := (assemble a).take a.pwdLength.toNat
    RandomByte := (assemble a).getD a.pwdLength.toNat 0
    SSID := (assemble a).drop (a.pwdLength.toNat + 1)
    ignoreSeqCnt := 0
    state := State.Done
    window := []
    doneClosed := true }

/-- A decoder in state `CheckingSeqData` of a payload with `total_length = 5` and
`pwd_length = 6`: chunk 0 is stored and the window holds the first five codes of
chunk 1. -/
def overlongPwdDecoder : AirKiss :=
  { SSID := [], SSIDCRC8 := 0, Password := [], RandomByte := 0, baseLength := 99,
    totalLength := 5, pwdLength := 6, state := State.CheckingSeqData, doneClosed := false,
    seqNo := 73, ignoreSeqCnt := 0, window := [251, 129, 261, 256, 256], seqDataCnt := 2,
    seqData := some [(0, [116, 0, 1, 2, 3, 4])] }

/-- A decoder in state `CheckingSeqData` of a payload with `total_length = 0`: the
window holds the first five codes of a group of index 0. -/
def emptyPayloadDecoder : AirKiss :=
  { SSID := [], SSIDCRC8 := 0, Password := [], RandomByte := 0, baseLength := 99,
    totalLength := 0, pwdLength := 0, state := State.CheckingSeqData, doneClosed := false,
    seqNo := 67, ignoreSeqCnt := 0, window := [244, 128, 257, 258, 259], seqDataCnt := 0,
    seqData := some [] }

/-- A decoder in state `CheckingSeqData` of a payload with `total_length = 7` and
`pwd_length = 4`, right after the frames ignored behind the prefix code. -/
def partialLastDecoder : AirKiss :=
  { SSID := [], SSIDCRC8 := 71, Password := [], RandomByte := 0, baseLength := 99,
    totalLength := 7, pwdLength := 4, state := State.CheckingSeqData, doneClosed := false,
    seqNo := 62, ignoreSeqCnt := 0, window := [], seqDataCnt := 2,
    seqData := some [] }

/-- The decoder `getSeqAndData` leaves when `overlongPwdDecoder` receives the
sixth code of chunk 1. -/
def overlongPwdStored : AirKiss :=
  { overlongPwdDecoder with
    seqNo := 74
    window := []
    seqData := some [(1, [123, 1, 5, 0, 0, 0]), (0, [116, 0, 1, 2, 3, 4])] }

/-- The decoder `getSeqAndData` leaves when `emptyPayloadDecoder` receives the
sixth code of its group. -/
def emptyPayloadStored : AirKiss :=
  { emptyPayloadDecoder with
    seqNo := 68
    window := []
    seqData := some [(0, [116, 0, 1, 2, 3, 4])] }

/-- The fields set from the headers hold a byte, and the chunk count the
rounded-up quarter of a byte. -/
def lengthsBounded (s : AirKiss) : Prop :=
  0 ≤ s.totalLength ∧ s.totalLength ≤ 255 ∧ 0 ≤ s.pwdLength ∧ s.pwdLength ≤ 255 ∧
    0 ≤ s.seqDataCnt ∧ s.seqDataCnt ≤ 64

/-! ## Definitions for the statements on the state machine -/

/-- The position of a state in the order
`CheckingGuideCode < CheckingMagicCode < CheckingPrefixCode < CheckingSeqData < Done`. -/
def stateRank : State → Nat
  | State.CheckingGuideCode => 0
  | State.CheckingMagicCode => 1
  | State.CheckingPrefixCode => 2
  | State.CheckingSeqData => 3
  | State.Done => 4

/-- The sequence number of the last observation of a list, `d` for the empty list. -/
def lastSeqNo (d : Nat) : List (Int × Nat) → Nat
  | [] => d
  | o :: rest => lastSeqNo o.2 rest

/-- The tag test of `getLengthAndCRC8(base)` on a window of four codes:
`w[i] & 0x01F0 = (i + base) << 4` for `i = 0 .. 3`. -/
def tagsMatch (base : Nat) (w0 w1 w2 w3 : Int) : Prop :=
  Int.land w0 0x01F0 = (((0 + base) <<< 4 : Nat) : Int) ∧
  Int.land w1 0x01F0 = (((1 + base) <<< 4 : Nat) : Int) ∧
  Int.land w2 0x01F0 = (((2 + base) <<< 4 : Nat) : Int) ∧
  Int.land w3 0x01F0 = (((3 + base) <<< 4 : Nat) : Int)

/-- The byte `((hi & 0x0F) << 4) | (lo & 0x0F)` carried by two codes. -/
def nibblePair (hi lo : Int) : Nat :=
  ((Int.land hi 0x000F).toNat <<< 4) ||| (Int.land lo 0x000F).toNat

/-- The last three elements of a list (the whole list when it is shorter). -/
def lastThree (l : List Int) : List Int := l.drop (l.length - 3)

/-- The decoder right after the guide frames `100, 101, 102, 103` with sequence
numbers `1 .. 4`. -/
def afterGuideDecoder : AirKiss :=
  { New with
    baseLength := 99
    state := State.CheckingMagicCode
    seqNo := 4
    ignoreSeqCnt := 10 }

/-- A decoder in state `CheckingMagicCode` whose window holds the first three
magic codes of `total_length = 8`, `ssid_crc8 = 0x42`. -/
def magicThreeDecoder : AirKiss :=
  { afterGuideDecoder with
    seqNo := 17
    ignoreSeqCnt := 0
    window := [0x00, 0x18, 0x24] }

/-- The decoder `magicThreeDecoder` after the fourth magic code. -/
def afterMagicDecoder : AirKiss :=
  { magicThreeDecoder with
    SSIDCRC8 := 0x42
    totalLength := 8
    state := State.CheckingPrefixCode
    seqNo := 18
    ignoreSeqCnt := 20
    window := [] }

/-- A decoder in state `CheckingPrefixCode` whose window holds the first three
prefix codes of `pwd_length = 4` with the check byte `crc8([5]) = 0x3F`. -/
def prefixThreeDecoder : AirKiss :=
  { afterGuideDecoder with
    SSIDCRC8 := 0x42
    totalLength := 8
    state := State.CheckingPrefixCode
    seqNo := 41
    ignoreSeqCnt := 0
    window := [0x40, 0x54, 0x63] }

/-- A decoder in state `CheckingSeqData` (`total_length = 7`) that has stored chunk
0 and whose window holds the first five codes of another group of index 0, the
record `[116, 0, 1, 2, 3, 4]` with a valid `crc7`. -/
def duplicateChunkDecoder : AirKiss :=
  { partialLastDecoder with
    seqNo := 73
    window := [244, 128, 257, 258, 259]
    seqData := some [(0, [76, 0, 0x74, 0x65, 0x73, 0x74])] }


/-- A decoder that waits for the guide code: state `CheckingGuideCode`, no offset
learned, nothing to ignore, and a window of at most four codes. -/
def guideWaiting (s : AirKiss) : Prop :=
  s.state = State.CheckingGuideCode ∧ s.baseLength = -1 ∧ s.ignoreSeqCnt = 0 ∧
    s.window.length ≤ 4

/-- The decoder after the observations `(50, 7), (51, 8), (60, 20)` and the
guide frames `100, 101, 102` with sequence numbers `30, 31, 32`. -/
def guideThreeDecoder : AirKiss :=
  { New with seqNo := 32, window := [100, 101, 102] }

/-- Every frame length of the list is at least `1`. -/
def positiveLengths (obs : List (Int × Nat)) : Bool :=
  obs.all (fun o => decide (1 ≤ o.1))

/-- The link between offset and state in a decoder that was only given frame
lengths in `[1, 2^63)`: in state `CheckingGuideCode` the offset is `-1` and the
window holds such lengths, in every other state the offset is `≥ 0`. -/
def offsetLinked (s : AirKiss) : Prop :=
  (s.state = State.CheckingGuideCode →
    s.baseLength = -1 ∧ ∀ c ∈ s.window, 1 ≤ c ∧ c < 2 ^ 63) ∧
  (s.state ≠ State.CheckingGuideCode → 0 ≤ s.baseLength)

/-! ## Reachability -/
theorem reachable_feed (obs : List (Int × Nat)) :
    ∀ s s1 : AirKiss, Reachable s → wellTyped obs = true → feed s obs = some s1 →
      Reachable s1 := by
  induction obs with
  | nil =>
    intro s s1 hs _ h
    simp only [feed, Option.some.injEq] at h
    exact h ▸ hs
  | cons o rest ih =>
    intro s s1 hs hwt h
    obtain ⟨f, n⟩ := o
    simp only [wellTyped, List.all_cons, Bool.and_eq_true, decide_eq_true_eq] at hwt
    obtain ⟨⟨⟨h1, h2⟩, h3⟩, hrest⟩ := hwt
    simp only [feed] at h
    cases hput : Put s f n with
    | none => simp [hput] at h
    | some s2 =>
      rw [hput] at h
      exact ih s2 s1 (Reachable.step f n hs h1 h2 h3 hput) hrest h

/-! ## `crc8`: known answers -/

/-- C10 (as stated): the four known answers of the specification do not all
hold, `crc8([0xFF])` is not `0xF3` and `crc8("123456789")` is not `0x25`. -/
theorem crc8_known_answers_as_stated_fail :
    ¬ (crc8 [] = 0x00 ∧ crc8 [0x00] = 0x00 ∧ crc8 [0xFF] = 0xF3 ∧
      crc8 [0x31, 0x32, 0x33, 0x34, 0x35, 0x36, 0x37, 0x38, 0x39] = 0x25) := by
  decide

set_option maxRecDepth 100000 in
/-- C10 (amended): `crc8([]) = 0x00`, `crc8([0x00]) = 0x00`,
`crc8([0xFF]) = 0x35` and `crc8("123456789") = 0xA1`, the check value of
CRC-8/MAXIM; `0xF3` is the register after the first of the eight bit steps
on `0xFF`. -/
theorem crc8_known_answers :
    crc8 [] = 0x00 ∧ crc8 [0x00] = 0x00 ∧ crc8 [0xFF] = 0x35 ∧
      crc8 [0x31, 0x32, 0x33, 0x34, 0x35, 0x36, 0x37, 0x38, 0x39] = 0xA1 ∧
      crc8Bit 0xFF = 0xF3 := by
  decide

/-! ## Runs of the decoder on concrete transmissions -/

set_option maxRecDepth 100000 in
/-- C1: on the transmission of password `"pass"`, random byte `0x7A`, ssid
`"abc"` (`total_length = 8`, two full chunks) the decoder does not reach `Done`:
it stores chunk 0, drops chunk 1 and stays in `CheckingSeqData` with empty
outputs.  For the last chunk the source compares `crc7` with
`crc8([index]) & 0x7F` (`94` for index 1), the sender's value over the index
and the four data bytes is `60`. -/
theorem roundtrip_full_last_chunk_not_done :
    (feed New (withSeq 1 (senderFrames 99 [0x70, 0x61, 0x73, 0x73] 0x7A [0x61, 0x62, 0x63]))).map
        (fun a => (a.state, a.Password, a.RandomByte, a.SSID))
      = some (State.CheckingSeqData, [], 0, [])
    ∧ (feed New (withSeq 1 (senderFrames 99 [0x70, 0x61, 0x73, 0x73] 0x7A [0x61, 0x62, 0x63]))).map
        (fun a => (mapGet a.seqData 0, mapGet a.seqData 1))
      = some (some [95, 0, 0x70, 0x61, 0x73, 0x73], none)
    ∧ crc8 [1] &&& 0x7F = 94
    ∧ crc8 [1, 0x7A, 0x61, 0x62, 0x63] &&& 0x7F = 60 := by
  refine ⟨?_, ?_, ?_, ?_⟩ <;> decide

set_option maxRecDepth 100000 in
/-- C2: on the transmission of password `"test"`, random byte `0x00`, ssid
`"ab"` (`total_length = 7`, `pwd_length = 4`) the decoder reaches `Done` with
`SSID = "ab\x00"`, three bytes: the slice `data[pwdLength+1:]` runs to the end of
the eight-byte buffer, while `D[pwd_length+1 .. total_length)` is `"ab"`. -/
theorem reassembly_ssid_keeps_padding :
    (feed New (withSeq 1 (senderFrames 99 [0x74, 0x65, 0x73, 0x74] 0x00 [0x61, 0x62]))).map
        (fun a => (a.state, a.Password, a.RandomByte, a.SSID,
          ((assemble a).take a.totalLength.toNat).drop (a.pwdLength.toNat + 1)))
      = some (State.Done, [0x74, 0x65, 0x73, 0x74], 0x00, [0x61, 0x62, 0x00], [0x61, 0x62]) := by
  decide

set_option maxRecDepth 100000 in
/-- C3: a reachable decoder in state `Done` that a `Put` moves back to
`CheckingMagicCode`.  The session `zeroGuideSession` ends in `Done` with
`baseLength = -1`; the `default` branch of `parseFrame` then still searches for
guide codes, and the fourth of the frames `0, 1, 2, 3` restarts the decoder. -/
theorem done_left_when_base_negative :
    ∃ s : AirKiss, Reachable s ∧ s.state = State.Done ∧
      (Put s 3 72).map (fun a => a.state) = some State.CheckingMagicCode := by
  have h : feed New (withSeq 1 (zeroGuideSession ++ [0, 1, 2])) = some
      { SSID := [0, 0, 0], SSIDCRC8 := 0, Password := [], RandomByte := 7, baseLength := -1,
        totalLength := 1, pwdLength := 0, state := State.Done, doneClosed := true,
        seqNo := 71, ignoreSeqCnt := 0, window := [0, 1, 2], seqDataCnt := 1,
        seqData := some [(0, [3, 0, 7, 0, 0, 0])] } := by decide
  exact ⟨_, reachable_feed _ _ _ Reachable.init (by decide) h, rfl, by decide⟩

set_option maxRecDepth 100000 in
/-- C5: a reachable decoder whose map `seqData` holds the key `1` while
`seqDataCnt = 1`.  After the headers of a one-byte payload the group
`[crc7, 1, 1, 2, 3, 4]` is stored: the index test of `getSeqAndData` is
`index > seqDataCnt`, so `index = seqDataCnt` passes. -/
theorem index_equal_to_count_is_stored :
    ∃ s : AirKiss, Reachable s ∧ s.state = State.CheckingSeqData ∧ s.seqDataCnt = 1 ∧
      mapGet s.seqData 1 = some [57, 1, 1, 2, 3, 4] := by
  have h : feed New (withSeq 1 (framesAt 99
      (headerPhase guideCodes 1 0 0 ++ chunkCodes 1 [1, 2, 3, 4]))) = some
      { SSID := [], SSIDCRC8 := 0, Password := [], RandomByte := 0, baseLength := 99,
        totalLength := 1, pwdLength := 0, state := State.CheckingSeqData, doneClosed := false,
        seqNo := 68, ignoreSeqCnt := 0, window := [], seqDataCnt := 1,
        seqData := some [(1, [57, 1, 1, 2, 3, 4])] } := by decide
  exact ⟨_, reachable_feed _ _ _ Reachable.init (by decide) h, rfl, rfl, by decide⟩

set_option maxRecDepth 100000 in
/-- C7 (as stated): a reachable decoder in state `CheckingMagicCode` with
`baseLength = -1`: the guide frames of lengths `0, 1, 2, 3` give
`baseLength = window[0] - 1 = -1`, an offset `< 0` in a state that is not
`CheckingGuideCode`. -/
theorem base_negative_after_guide :
    ∃ s : AirKiss, Reachable s ∧ s.state = State.CheckingMagicCode ∧ s.baseLength = -1 := by
  have h : feed New (withSeq 1 [0, 1, 2, 3]) = some
      { SSID := [], SSIDCRC8 := 0, Password := [], RandomByte := 0, baseLength := -1,
        totalLength := 0, pwdLength := 0, state := State.CheckingMagicCode, doneClosed := false,
        seqNo := 4, ignoreSeqCnt := 10, window := [], seqDataCnt := 0,
        seqData := none } := by decide
  exact ⟨_, reachable_feed _ _ _ Reachable.init (by decide) h, rfl, rfl⟩

set_option maxRecDepth 100000 in
/-- C8: a reachable decoder with `totalLength = 8`, `seqDataCnt = 2` whose stored
record of the last chunk, `[94, 1, 0, 0, 0, 0]`, has
`crc8([1, 0, 0, 0, 0]) & 0x7F = 77`, not `94`: for the last chunk of a payload
whose length is a multiple of four the source checks `crc7` against
`crc8([index]) & 0x7F` and stores no data byte. -/
theorem last_full_chunk_record_crc_mismatch :
    ∃ s : AirKiss, Reachable s ∧ s.totalLength = 8 ∧ s.seqDataCnt = 2 ∧
      mapGet s.seqData 1 = some [94, 1, 0, 0, 0, 0] ∧
      crc8 [1, 0, 0, 0, 0] &&& 0x7F = 77 ∧ crc8 [1] &&& 0x7F = 94 := by
  have h : feed New (withSeq 1 (framesAt 99
      (headerPhase guideCodes 8 0x42 4 ++ seqGroup 94 1 0x7A 0x61 0x62 0x63))) = some
      { SSID := [], SSIDCRC8 := 66, Password := [], RandomByte := 0, baseLength := 99,
        totalLength := 8, pwdLength := 4, state := State.CheckingSeqData, doneClosed := false,
        seqNo := 68, ignoreSeqCnt := 0, window := [], seqDataCnt := 2,
        seqData := some [(1, [94, 1, 0, 0, 0, 0])] } := by decide
  exact ⟨_, reachable_feed _ _ _ Reachable.init (by decide) h, rfl, rfl, by decide,
    by decide, by decide⟩

/-! ## Case lemmas on the source functions -/
theorem shiftWindow_length (w : List Int) : (shiftWindow w).length = w.length := by
  induction w with
  | nil => rfl
  | cons a t ih =>
    cases t with
    | nil => rfl
    | cons b r => simp only [shiftWindow, List.length_cons] at ih ⊢; omega

theorem getLengthAndCRC8_cases (ak ak1 : AirKiss) (base : Nat) (l c : Int) (ok : Bool)
    (h : getLengthAndCRC8 ak base = some (ak1, l, c, ok)) :
    (ok = false ∧ ak1 = ak) ∨ (ok = true ∧ ak1 = { ak with window := [] }) := by
  unfold getLengthAndCRC8 at h
  split at h
  · split at h
    · simp only [Option.some.injEq, Prod.mk.injEq] at h
      exact Or.inr ⟨h.2.2.2.symm, h.1.symm⟩
    · simp at h
  · simp only [Option.some.injEq, Prod.mk.injEq] at h
    exact Or.inl ⟨h.2.2.2.symm, h.1.symm⟩

theorem getSeqAndData_cases (ak ak1 : AirKiss) (ok : Bool)
    (h : getSeqAndData ak = some (ak1, ok)) :
    (ok = false ∧ ak1 = ak) ∨ (ok = false ∧ ak1 = { ak with window := [] }) ∨
    (∃ l tb, ak.seqData = some l ∧
      ak1 = { ak with seqData := some (mapSet l (tb.getD 1 0) tb), window := [] }) := by
  unfold getSeqAndData at h
  simp only [] at h
  repeat' split at h
  all_goals first
    | (simp at h; done)
    | (simp only [Option.some.injEq, Prod.mk.injEq] at h
       obtain ⟨h1, h2⟩ := h
       subst h1 h2
       first
         | exact Or.inl ⟨rfl, rfl⟩
         | exact Or.inr (Or.inl ⟨rfl, rfl⟩)
         | exact Or.inr (Or.inr ⟨_, _, ‹_›, rfl⟩))

/-- What `parseFrame` does to the window and the state: either the window is
emptied, or window and state are both kept. -/
theorem parseFrame_window (ak ak1 : AirKiss) (h : parseFrame ak = some ak1) :
    ak1.window = [] ∨ (ak1.window = ak.window ∧ ak1.state = ak.state) := by
  unfold parseFrame at h
  split at h
  · split at h
    · simp at h
    · rename_i a l c ok hg
      rcases getLengthAndCRC8_cases _ _ _ _ _ _ hg with ⟨hok, ha⟩ | ⟨hok, ha⟩
      · subst hok ha; simp only [Bool.not_false, ↓reduceIte, Option.some.injEq] at h
        subst h; exact Or.inr ⟨rfl, rfl⟩
      · subst hok; simp only [Bool.not_true, Bool.false_eq_true, ↓reduceIte, Option.some.injEq] at h
        subst h; exact Or.inl rfl
  · split at h
    · simp at h
    · rename_i a l c ok hg
      rcases getLengthAndCRC8_cases _ _ _ _ _ _ hg with ⟨hok, ha⟩ | ⟨hok, ha⟩
      · subst hok ha; simp only [Bool.not_false, Bool.true_or, ↓reduceIte, Option.some.injEq] at h
        subst h; exact Or.inr ⟨rfl, rfl⟩
      · subst hok ha
        split at h <;> (simp only [Option.some.injEq] at h; subst h; exact Or.inl rfl)
  · split at h
    · simp at h
    · rename_i a ok hg
      rcases getSeqAndData_cases _ _ _ hg with ⟨hok, ha⟩ | ⟨hok, ha⟩ | ⟨l, tb, hl, ha⟩
      · subst hok ha; simp only [Bool.not_false, ↓reduceIte, Option.some.injEq] at h
        subst h; exact Or.inr ⟨rfl, rfl⟩
      · subst hok ha; simp only [Bool.not_false, ↓reduceIte, Option.some.injEq] at h
        subst h; exact Or.inl rfl
      · subst ha
        simp only [] at h
        repeat' split at h
        all_goals first
          | (simp at h; done)
          | (simp only [Option.some.injEq] at h; subst h; exact Or.inl rfl)
  · repeat' split at h
    all_goals first
      | (simp at h; done)
      | (simp only [Option.some.injEq] at h; subst h; exact Or.inr ⟨rfl, rfl⟩)
      | (simp only [Option.some.injEq] at h; subst h; exact Or.inl rfl)

theorem Put_ignored (ak : AirKiss) (frameLen : Int) (seqNo : Nat) (h : ak.ignoreSeqCnt > 0) :
    Put ak frameLen seqNo =
      some { ak with seqNo := seqNo, window := [], ignoreSeqCnt := ak.ignoreSeqCnt - 1 } := by
  simp [Put, h]

theorem Put_short (ak : AirKiss) (frameLen : Int) (seqNo : Nat) (h : ak.ignoreSeqCnt = 0)
    (hlen : (nextWindow ak frameLen seqNo).length < windowSize ak.state) :
    Put ak frameLen seqNo =
      some { ak with seqNo := seqNo, window := nextWindow ak frameLen seqNo } := by
  unfold nextWindow at hlen ⊢
  by_cases hb : seqBreak ak.seqNo seqNo = true
  · have hb2 := hb
    simp only [seqBreak] at hb2
    simp only [hb, ↓reduceIte, List.length_nil, List.nil_append, List.length_singleton] at hlen ⊢
    split at hlen
    · rename_i h0
      simp only [List.length_singleton] at hlen
      simp [Put, h, hb2, codeOf, h0, hlen]
    · rename_i h0
      simp at hlen; omega
  · have hb2 := hb
    simp only [seqBreak] at hb2
    simp only [hb, Bool.false_eq_true, ↓reduceIte] at hlen ⊢
    split at hlen
    · rename_i h0
      simp only [List.length_append, List.length_singleton] at hlen
      simp [Put, h, hb2, codeOf, h0, hlen]
    · rename_i h0
      simp only [List.length_set] at hlen
      omega

theorem Put_parse (ak : AirKiss) (frameLen : Int) (seqNo : Nat) (h : ak.ignoreSeqCnt = 0)
    (hlen : ¬ (nextWindow ak frameLen seqNo).length < windowSize ak.state) :
    Put ak frameLen seqNo =
      (parseFrame { ak with seqNo := seqNo, window := nextWindow ak frameLen seqNo }).map
        (fun a => { a with window := shiftWindow a.window }) := by
  unfold nextWindow at hlen ⊢
  by_cases hb : seqBreak ak.seqNo seqNo = true
  · have hb2 := hb
    simp only [seqBreak] at hb2
    simp only [hb, ↓reduceIte, List.length_nil, List.nil_append, List.length_singleton] at hlen ⊢
    split at hlen
    · rename_i h0
      simp only [List.length_singleton] at hlen
      simp [Put, h, hb2, codeOf, h0, hlen]
    · rename_i h0
      simp [Put, h, hb2, codeOf, h0]
  · have hb2 := hb
    simp only [seqBreak] at hb2
    simp only [hb, Bool.false_eq_true, ↓reduceIte] at hlen ⊢
    split at hlen
    · rename_i h0
      simp only [List.length_append, List.length_singleton] at hlen
      simp [Put, h, hb2, codeOf, h0, hlen]
    · rename_i h0
      simp [Put, h, hb2, codeOf, h0]

/-! ## The window bound -/
theorem nextWindow_length_le (ak : AirKiss) (frameLen : Int) (seqNo : Nat)
    (hinv : ak.window.length ≤ windowSize ak.state) :
    (nextWindow ak frameLen seqNo).length ≤ windowSize ak.state := by
  unfold nextWindow
  by_cases hb : seqBreak ak.seqNo seqNo = true
  · simp only [hb, ↓reduceIte, List.length_nil]
    split
    · simp only [List.nil_append, List.length_singleton]; omega
    · simp
  · simp only [hb, Bool.false_eq_true, ↓reduceIte]
    split
    · simp only [List.length_append, List.length_singleton]; omega
    · simp only [List.length_set]; exact hinv

theorem Put_window_bound (s s1 : AirKiss) (frameLen : Int) (seqNo : Nat)
    (hinv : s.window.length ≤ windowSize s.state) (h : Put s frameLen seqNo = some s1) :
    s1.window.length ≤ windowSize s1.state := by
  by_cases hi : s.ignoreSeqCnt > 0
  · rw [Put_ignored s frameLen seqNo hi] at h
    simp only [Option.some.injEq] at h
    subst h
    simp
  · have hi0 : s.ignoreSeqCnt = 0 := by omega
    by_cases hlen : (nextWindow s frameLen seqNo).length < windowSize s.state
    · rw [Put_short s frameLen seqNo hi0 hlen] at h
      simp only [Option.some.injEq] at h
      subst h
      exact Nat.le_of_lt hlen
    · rw [Put_parse s frameLen seqNo hi0 hlen] at h
      simp only [Option.map_eq_some'] at h
      obtain ⟨a, ha, rfl⟩ := h
      simp only [shiftWindow_length]
      rcases parseFrame_window _ _ ha with hw | ⟨hw, hst⟩
      · rw [hw]; simp
      · rw [hw, hst]
        exact nextWindow_length_le s frameLen seqNo hinv

theorem reachable_window_bound (s : AirKiss) (hs : Reachable s) :
    s.window.length ≤ windowSize s.state := by
  induction hs with
  | init => decide
  | step frameLen seqNo _ _ _ _ hput ih => exact Put_window_bound _ _ frameLen seqNo ih hput

/-- C6: for every decoder reachable from `New()` and every observation, when
`Put` returns the window holds at most `windowSize` codes, `6` in state
`CheckingSeqData` and `4` in every other state, the state being the one after
the `Put`. -/
theorem window_bound_after_put (s s1 : AirKiss) (frameLen : Int) (seqNo : Nat)
    (hs : Reachable s) (hput : Put s frameLen seqNo = some s1) :
    s1.window.length ≤ windowSize s1.state ∧
      windowSize s1.state = (if s1.state = State.CheckingSeqData then 6 else 4) := by
  refine ⟨Put_window_bound s s1 frameLen seqNo (reachable_window_bound s hs) hput, ?_⟩
  cases s1.state <;> rfl

/-- C6, an instance: the first observation put into `New()`. -/
theorem window_bound_after_put_witness :
    Reachable New ∧ Put New 100 1 = some { New with seqNo := 1, window := [100] } ∧
      (({ New with seqNo := 1, window := [100] } : AirKiss).window.length
          ≤ windowSize ({ New with seqNo := 1, window := [100] } : AirKiss).state ∧
        windowSize ({ New with seqNo := 1, window := [100] } : AirKiss).state
          = (if ({ New with seqNo := 1, window := [100] } : AirKiss).state
              = State.CheckingSeqData then 6 else 4)) :=
  ⟨Reachable.init, by decide,
    window_bound_after_put New { New with seqNo := 1, window := [100] } 100 1
      Reachable.init (by decide)⟩

/-! ## The offset, the guide code and the state `Done` -/

/-- The outputs and the decoding parameters of a decoder in state `Done` whose
offset is not negative are frozen: `parseFrame` returns the decoder as it is. -/
theorem parseFrame_done (ak : AirKiss) (hst : ak.state = State.Done) (hb : 0 ≤ ak.baseLength) :
    parseFrame ak = some ak := by
  unfold parseFrame
  rw [hst]
  simp only
  rw [if_neg (by omega)]

/-- `Done` is terminal for a decoder whose offset is not negative: every `Put`
returns, keeps the state and changes nothing but `seqNo`, `ignoreSeqCnt` and the
window. -/
theorem done_frozen_when_base_nonneg (s : AirKiss) (frameLen : Int) (seqNo : Nat)
    (hst : s.state = State.Done) (hb : 0 ≤ s.baseLength) :
    ∃ s1, Put s frameLen seqNo = some s1 ∧ s1.state = State.Done ∧ s1.SSID = s.SSID ∧
      s1.Password = s.Password ∧ s1.RandomByte = s.RandomByte ∧ s1.SSIDCRC8 = s.SSIDCRC8 ∧
      s1.baseLength = s.baseLength ∧ s1.seqData = s.seqData ∧ s1.doneClosed = s.doneClosed := by
  by_cases hi : s.ignoreSeqCnt > 0
  · exact ⟨_, Put_ignored s frameLen seqNo hi, hst, rfl, rfl, rfl, rfl, rfl, rfl, rfl⟩
  · have hi0 : s.ignoreSeqCnt = 0 := by omega
    by_cases hlen : (nextWindow s frameLen seqNo).length < windowSize s.state
    · exact ⟨_, Put_short s frameLen seqNo hi0 hlen, hst, rfl, rfl, rfl, rfl, rfl, rfl, rfl⟩
    · refine ⟨{ s with seqNo := seqNo, window := shiftWindow (nextWindow s frameLen seqNo) },
        ?_, hst, rfl, rfl, rfl, rfl, rfl, rfl, rfl⟩
      rw [Put_parse s frameLen seqNo hi0 hlen,
        parseFrame_done { s with seqNo := seqNo, window := nextWindow s frameLen seqNo } hst hb]
      rfl

/-- When `parseFrame` returns a decoder in state `CheckingGuideCode`, it started
in that state and kept the offset. -/
theorem parseFrame_guide (ak a : AirKiss) (h : parseFrame ak = some a)
    (hst : a.state = State.CheckingGuideCode) :
    ak.state = State.CheckingGuideCode ∧ a.baseLength = ak.baseLength := by
  unfold parseFrame at h
  split at h
  · split at h
    · simp at h
    · rename_i a1 l c ok hg
      rcases getLengthAndCRC8_cases _ _ _ _ _ _ hg with ⟨hok, ha⟩ | ⟨hok, ha⟩
      · subst hok ha
        simp only [Bool.not_false, ↓reduceIte, Option.some.injEq] at h
        subst h
        simp_all
      · subst hok ha
        simp only [Bool.not_true, Bool.false_eq_true, ↓reduceIte, Option.some.injEq] at h
        subst h
        simp [setState] at hst
  · split at h
    · simp at h
    · rename_i a1 l c ok hg
      rcases getLengthAndCRC8_cases _ _ _ _ _ _ hg with ⟨hok, ha⟩ | ⟨hok, ha⟩
      · subst hok ha
        simp only [Bool.not_false, Bool.true_or, ↓reduceIte, Option.some.injEq] at h
        subst h
        simp_all
      · subst hok ha
        split at h <;> simp only [Option.some.injEq] at h <;> subst h
        · simp_all
        · simp [setState] at hst
  · split at h
    · simp at h
    · rename_i a1 ok hg
      rcases getSeqAndData_cases _ _ _ hg with ⟨hok, ha⟩ | ⟨hok, ha⟩ | ⟨l, tb, hl, ha⟩
      · subst hok ha
        simp only [Bool.not_false, ↓reduceIte, Option.some.injEq] at h
        subst h
        simp_all
      · subst hok ha
        simp only [Bool.not_false, ↓reduceIte, Option.some.injEq] at h
        subst h
        simp_all
      · subst ha
        simp only [] at h
        repeat' split at h
        all_goals first
          | (simp at h; done)
          | (simp only [Option.some.injEq] at h; subst h; simp_all [setState])
  · repeat' split at h
    all_goals first
      | (simp at h; done)
      | (simp only [Option.some.injEq] at h; subst h
         first
           | (simp [setState] at hst)
           | (cases hs : ak.state <;> simp_all))

/-- A `Put` that returns a decoder in state `CheckingGuideCode` started in that
state and kept the offset. -/
theorem Put_guide (s s1 : AirKiss) (frameLen : Int) (seqNo : Nat)
    (h : Put s frameLen seqNo = some s1) (hst : s1.state = State.CheckingGuideCode) :
    s.state = State.CheckingGuideCode ∧ s1.baseLength = s.baseLength := by
  by_cases hi : s.ignoreSeqCnt > 0
  · rw [Put_ignored s frameLen seqNo hi, Option.some.injEq] at h
    subst h
    exact ⟨hst, rfl⟩
  · have hi0 : s.ignoreSeqCnt = 0 := by omega
    by_cases hlen : (nextWindow s frameLen seqNo).length < windowSize s.state
    · rw [Put_short s frameLen seqNo hi0 hlen, Option.some.injEq] at h
      subst h
      exact ⟨hst, rfl⟩
    · rw [Put_parse s frameLen seqNo hi0 hlen] at h
      simp only [Option.map_eq_some'] at h
      obtain ⟨a, ha, rfl⟩ := h
      exact parseFrame_guide { s with seqNo := seqNo, window := nextWindow s frameLen seqNo } a ha hst

/-- One direction of the link between offset and state holds in every reachable
decoder: in state `CheckingGuideCode` the offset is still `-1`, so an offset
`≥ 0` means that the guide code is behind. -/
theorem reachable_guide_base (s : AirKiss) (hs : Reachable s) :
    s.state = State.CheckingGuideCode → s.baseLength = -1 := by
  induction hs with
  | init => intro _; rfl
  | step frameLen seqNo _ _ _ _ hput ih =>
    intro hst
    obtain ⟨h1, h2⟩ := Put_guide _ _ frameLen seqNo hput hst
    rw [h2]
    exact ih h1

/-! ## The range of the header fields -/
theorem ldiff_lt_two_pow (m n k : Nat) (h : m < 2 ^ k) : Nat.ldiff m n < 2 ^ k := by
  apply Nat.lt_pow_two_of_testBit
  intro i hi
  rw [Nat.testBit_ldiff]
  have : m.testBit i = false :=
    Nat.testBit_lt_two_pow (Nat.lt_of_lt_of_le h (Nat.pow_le_pow_right (by decide) hi))
  simp [this]

theorem land_nibble (v : Int) : 0 ≤ Int.land v 0x000F ∧ Int.land v 0x000F ≤ 15 := by
  cases v with
  | ofNat n =>
    show 0 ≤ ((n &&& 15 : Nat) : Int) ∧ ((n &&& 15 : Nat) : Int) ≤ 15
    have : n &&& 15 ≤ 15 := Nat.and_le_right
    omega
  | negSucc n =>
    show 0 ≤ ((Nat.ldiff 15 n : Nat) : Int) ∧ ((Nat.ldiff 15 n : Nat) : Int) ≤ 15
    have := ldiff_lt_two_pow 15 n 4 (by decide)
    omega

/-- Both results of `getLengthAndCRC8` are bytes. -/
theorem getLengthAndCRC8_bounds (ak ak1 : AirKiss) (base : Nat) (l c : Int) (ok : Bool)
    (h : getLengthAndCRC8 ak base = some (ak1, l, c, ok)) :
    0 ≤ l ∧ l ≤ 255 ∧ 0 ≤ c ∧ c ≤ 255 := by
  unfold getLengthAndCRC8 at h
  split at h
  · split at h
    · rename_i w0 w1 w2 w3 _ _
      simp only [Option.some.injEq, Prod.mk.injEq] at h
      obtain ⟨_, hl, hc, _⟩ := h
      have a0 := land_nibble w0
      have a1 := land_nibble w1
      have a2 := land_nibble w2
      have a3 := land_nibble w3
      omega
    · simp at h
  · simp only [Option.some.injEq, Prod.mk.injEq] at h
    omega

theorem parseFrame_bounds (ak a : AirKiss) (hb : lengthsBounded ak)
    (h : parseFrame ak = some a) : lengthsBounded a := by
  unfold lengthsBounded at hb ⊢
  unfold parseFrame at h
  split at h
  · split at h
    · simp at h
    · rename_i a1 l c ok hg
      have hlc := getLengthAndCRC8_bounds _ _ _ _ _ _ hg
      rcases getLengthAndCRC8_cases _ _ _ _ _ _ hg with ⟨hok, ha⟩ | ⟨hok, ha⟩
      · subst hok ha
        simp only [Bool.not_false, ↓reduceIte, Option.some.injEq] at h
        subst h
        exact hb
      · subst hok ha
        simp only [Bool.not_true, Bool.false_eq_true, ↓reduceIte, Option.some.injEq] at h
        subst h
        simp only [setState]
        omega
  · split at h
    · simp at h
    · rename_i a1 l c ok hg
      have hlc := getLengthAndCRC8_bounds _ _ _ _ _ _ hg
      rcases getLengthAndCRC8_cases _ _ _ _ _ _ hg with ⟨hok, ha⟩ | ⟨hok, ha⟩
      · subst hok ha
        simp only [Bool.not_false, Bool.true_or, ↓reduceIte, Option.some.injEq] at h
        subst h
        exact hb
      · subst hok ha
        split at h <;> simp only [Option.some.injEq] at h <;> subst h
        · exact hb
        · simp only [setState, ceilDiv4]
          omega
  · split at h
    · simp at h
    · rename_i a1 ok hg
      rcases getSeqAndData_cases _ _ _ hg with ⟨hok, ha⟩ | ⟨hok, ha⟩ | ⟨l, tb, hl, ha⟩
      · subst hok ha
        simp only [Bool.not_false, ↓reduceIte, Option.some.injEq] at h
        subst h
        exact hb
      · subst hok ha
        simp only [Bool.not_false, ↓reduceIte, Option.some.injEq] at h
        subst h
        exact hb
      · subst ha
        simp only [] at h
        repeat' split at h
        all_goals first
          | (simp at h; done)
          | (simp only [Option.some.injEq] at h; subst h; exact hb)
  · repeat' split at h
    all_goals first
      | (simp at h; done)
      | (simp only [Option.some.injEq] at h; subst h; exact hb)

theorem Put_bounds (s s1 : AirKiss) (frameLen : Int) (seqNo : Nat) (hb : lengthsBounded s)
    (h : Put s frameLen seqNo = some s1) : lengthsBounded s1 := by
  by_cases hi : s.ignoreSeqCnt > 0
  · rw [Put_ignored s frameLen seqNo hi, Option.some.injEq] at h
    subst h
    exact hb
  · have hi0 : s.ignoreSeqCnt = 0 := by omega
    by_cases hlen : (nextWindow s frameLen seqNo).length < windowSize s.state
    · rw [Put_short s frameLen seqNo hi0 hlen, Option.some.injEq] at h
      subst h
      exact hb
    · rw [Put_parse s frameLen seqNo hi0 hlen] at h
      simp only [Option.map_eq_some'] at h
      obtain ⟨a, ha, rfl⟩ := h
      exact parseFrame_bounds { s with seqNo := seqNo, window := nextWindow s frameLen seqNo } a
        hb ha

/-- In every decoder reachable from `New()` the fields `totalLength` and
`pwdLength` hold a byte and `seqDataCnt` is at most `64`: the integer
operations of the source on them stay far from the limits of `int`, and
`float64` is exact on them. -/
theorem reachable_bounds (s : AirKiss) (hs : Reachable s) : lengthsBounded s := by
  induction hs with
  | init => simp [lengthsBounded, New]
  | step frameLen seqNo _ _ _ _ hput ih => exact Put_bounds _ _ frameLen seqNo ih hput

/-! ## `crc8` is linear over xor -/
theorem shiftRight_xor (a b k : Nat) : (a ^^^ b) >>> k = (a >>> k) ^^^ (b >>> k) := by
  apply Nat.eq_of_testBit_eq
  intro i
  simp only [Nat.testBit_shiftRight, Nat.testBit_xor]

theorem and_xor_right (a b c : Nat) : (a ^^^ b) &&& c = (a &&& c) ^^^ (b &&& c) := by
  apply Nat.eq_of_testBit_eq
  intro i
  simp only [Nat.testBit_and, Nat.testBit_xor]
  cases a.testBit i <;> cases b.testBit i <;> cases c.testBit i <;> rfl

theorem crc8Bit_eq (c : Nat) : crc8Bit c = (c >>> 1) ^^^ ((c % 2) * 0x8c) := by
  unfold crc8Bit
  rw [Nat.and_one_is_mod]
  rcases Nat.mod_two_eq_zero_or_one c with h | h <;> simp [h]

theorem xor_xor_xor_comm (a b c d : Nat) :
    (a ^^^ b) ^^^ (c ^^^ d) = (a ^^^ c) ^^^ (b ^^^ d) := by
  apply Nat.eq_of_testBit_eq
  intro i
  simp only [Nat.testBit_xor]
  cases a.testBit i <;> cases b.testBit i <;> cases c.testBit i <;> cases d.testBit i <;> rfl

theorem crc8Bit_xor (a b : Nat) : crc8Bit (a ^^^ b) = crc8Bit a ^^^ crc8Bit b := by
  simp only [crc8Bit_eq, shiftRight_xor]
  rw [xor_xor_xor_comm]
  congr 1
  have hm : (a ^^^ b) % 2 = (a % 2 + b % 2) % 2 := by
    have := @Nat.xor_mod_two_eq_one a b
    omega
  rw [hm]
  rcases Nat.mod_two_eq_zero_or_one a with h | h <;>
    rcases Nat.mod_two_eq_zero_or_one b with h' | h' <;>
    simp [h, h']

theorem crc8Bit_iterate_xor (k a b : Nat) :
    crc8Bit^[k] (a ^^^ b) = crc8Bit^[k] a ^^^ crc8Bit^[k] b := by
  induction k generalizing a b with
  | zero => rfl
  | succ k ih => simp only [Function.iterate_succ, Function.comp_apply, crc8Bit_xor, ih]

theorem crc8Byte_xor (c1 c2 b1 b2 : Nat) :
    crc8Byte (c1 ^^^ c2) (b1 ^^^ b2) = crc8Byte c1 b1 ^^^ crc8Byte c2 b2 := by
  unfold crc8Byte
  rw [← crc8Bit_iterate_xor]
  congr 1
  exact xor_xor_xor_comm c1 c2 b1 b2

theorem foldl_crc8Byte_xor (a b : List Nat) (h : a.length = b.length) (x y : Nat) :
    (List.zipWith (fun p q => p ^^^ q) a b).foldl crc8Byte (x ^^^ y)
      = a.foldl crc8Byte x ^^^ b.foldl crc8Byte y := by
  induction a generalizing b x y with
  | nil =>
    cases b with
    | nil => rfl
    | cons _ _ => simp at h
  | cons p a ih =>
    cases b with
    | nil => simp at h
    | cons q b =>
      simp only [List.length_cons, Nat.add_right_cancel_iff] at h
      simp only [List.zipWith_cons_cons, List.foldl_cons, crc8Byte_xor]
      exact ih b h _ _

theorem crc8_xor (a b : List Nat) (h : a.length = b.length) :
    crc8 (List.zipWith (fun p q => p ^^^ q) a b) = crc8 a ^^^ crc8 b := by
  unfold crc8
  have := foldl_crc8Byte_xor a b h 0 0
  simpa using this

set_option maxRecDepth 1000000 in

theorem crc8_unit_ne_zero :
    ∀ L < 6, ∀ p < L, ∀ b < 8, crc8 ((List.replicate L 0).set p (2 ^ b)) &&& 0x7F ≠ 0 := by
  decide

theorem set_xor_eq_zipWith (xs : List Nat) (p e : Nat) (hp : p < xs.length) :
    xs.set p (xs.getD p 0 ^^^ e)
      = List.zipWith (fun a b => a ^^^ b) xs ((List.replicate xs.length 0).set p e) := by
  induction xs generalizing p with
  | nil => simp at hp
  | cons x xs ih =>
    cases p with
    | zero =>
      simp only [List.set_cons_zero, List.getD_cons_zero, List.length_cons, List.replicate_succ,
        List.zipWith_cons_cons, List.cons.injEq, true_and]
      clear ih hp
      induction xs with
      | nil => rfl
      | cons y ys ih2 => simp [List.replicate_succ, ← ih2]
    | succ p =>
      simp only [List.length_cons, Nat.add_lt_add_iff_right] at hp
      simp only [List.set_cons_succ, List.getD_cons_succ, List.length_cons, List.replicate_succ,
        List.zipWith_cons_cons, Nat.xor_zero, ih p hp]

/-! ## Groups of six codes -/

set_option maxRecDepth 100000 in

theorem land_head_flag : ∀ c < 128, Int.land ((0x80 + c : Nat) : Int) 0x0180 = 0x0080 := by
  decide

set_option maxRecDepth 100000 in

theorem land_head_value : ∀ c < 128, toByte (Int.land ((0x80 + c : Nat) : Int) 0x7F) = c := by
  decide

set_option maxRecDepth 100000 in

theorem land_data_flag : ∀ d < 256, Int.land ((0x100 + d : Nat) : Int) 0x0100 = 0x0100 := by
  decide

set_option maxRecDepth 100000 in

theorem land_data_value : ∀ d < 256, toByte (Int.land ((0x100 + d : Nat) : Int) 0xFF) = d := by
  decide

theorem seqLoop_group (ak : AirKiss) (crc7 idx d0 d1 d2 d3 : Nat)
    (hc : crc7 < 128) (hi : idx < 128) (h0 : d0 < 256) (h1 : d1 < 256) (h2 : d2 < 256)
    (h3 : d3 < 256) :
    seqLoop ak 0 ((seqGroup crc7 idx d0 d1 d2 d3).map (fun (c : Nat) => (c : Int)))
        (List.replicate windowSizeSeqData 0) =
      if (mapGet ak.seqData idx).isSome || (idx : Int) > ak.seqDataCnt then some none
      else some (some [crc7, idx, keptByte ak idx 0 d0, keptByte ak idx 1 d1,
        keptByte ak idx 2 d2, keptByte ak idx 3 d3]) := by
  simp only [seqGroup, List.map_cons, List.map_nil, seqLoop, seqStep, windowSizeSeqData,
    List.replicate, land_head_flag _ hc, land_head_value _ hc, land_head_flag _ hi,
    land_head_value _ hi, land_data_flag _ h0, land_data_flag _ h1, land_data_flag _ h2,
    land_data_flag _ h3, land_data_value _ h0, land_data_value _ h1, land_data_value _ h2,
    land_data_value _ h3]
  simp only [bne_self_eq_false, Bool.false_eq_true, ↓reduceIte, List.set_cons_zero,
    List.set_cons_succ, List.getD_cons_succ, List.getD_cons_zero, Nat.zero_add, Nat.reduceAdd,
    Nat.reduceLT, Nat.cast_ofNat, keptByte, Nat.cast_zero, Nat.cast_one]
  by_cases hex : ((mapGet ak.seqData idx).isSome || decide ((idx : Int) > ak.seqDataCnt)) = true
  · simp only [hex, ↓reduceIte]
  · simp only [hex, Bool.false_eq_true, ↓reduceIte, List.getD_cons_succ, List.getD_cons_zero]
    by_cases hl : ((idx : Int) == ak.seqDataCnt - 1) = true
    · simp only [hl, Bool.true_and, decide_eq_true_eq]
      generalize ak.totalLength.tmod 4 = r
      simp only [Int.reduceSub]
      by_cases c0 : (0 : Int) > r - 1 <;> by_cases c1 : (1 : Int) > r - 1 <;>
        by_cases c2 : (2 : Int) > r - 1 <;> by_cases c3 : (3 : Int) > r - 1 <;>
        simp [c0, c1, c2, c3, hl]
    · simp [hl]

theorem seqBreak_succ (m : Nat) : seqBreak (m % 65536) ((m + 1) % 65536) = false := by
  have h : (m % 65536 + 1) % 65536 = (m + 1) % 65536 := by omega
  simp [seqBreak, h]

theorem Put_append (s : AirKiss) (w : List Int) (m : Nat) (frameLen : Int) (seqNo : Nat)
    (hi : s.ignoreSeqCnt = 0) (hst : s.state = State.CheckingSeqData)
    (hb : w = [] ∨ seqBreak m seqNo = false) (hlen : w.length + 1 < 6) :
    Put { s with seqNo := m, window := w } frameLen seqNo =
      some { s with seqNo := seqNo, window := w ++ [codeOf s.baseLength frameLen] } := by
  have hnw : nextWindow { s with seqNo := m, window := w } frameLen seqNo
      = w ++ [codeOf s.baseLength frameLen] := by
    unfold nextWindow
    simp only [hst, windowSize, windowSizeSeqData]
    rcases hb with hb | hb
    · subst hb; simp
    · simp only [hb, Bool.false_eq_true, ↓reduceIte]
      rw [if_pos (by omega)]
  have h1 := Put_short { s with seqNo := m, window := w } frameLen seqNo hi
    (by rw [hnw]; simp only [hst, windowSize, windowSizeSeqData, List.length_append,
          List.length_singleton]; omega)
  rw [h1, hnw]

theorem Put_complete (s : AirKiss) (w : List Int) (m : Nat) (frameLen : Int) (seqNo : Nat)
    (hi : s.ignoreSeqCnt = 0) (hst : s.state = State.CheckingSeqData)
    (hb : seqBreak m seqNo = false) (hlen : w.length + 1 = 6) :
    Put { s with seqNo := m, window := w } frameLen seqNo =
      (parseFrame { s with seqNo := seqNo, window := w ++ [codeOf s.baseLength frameLen] }).map
        (fun a => { a with window := shiftWindow a.window }) := by
  have hnw : nextWindow { s with seqNo := m, window := w } frameLen seqNo
      = w ++ [codeOf s.baseLength frameLen] := by
    unfold nextWindow
    simp only [hst, windowSize, windowSizeSeqData]
    simp only [hb, Bool.false_eq_true, ↓reduceIte]
    rw [if_pos (by omega)]
  have h1 := Put_parse { s with seqNo := m, window := w } frameLen seqNo hi
    (by rw [hnw]; simp only [hst, windowSize, windowSizeSeqData, List.length_append,
          List.length_singleton]; omega)
  rw [h1, hnw]

/-- Six observations with consecutive sequence numbers put into a decoder in
state `CheckingSeqData` that ignores nothing and has an empty window: the
first five codes are appended, the sixth calls `parseFrame` on the six codes. -/
theorem feed_six (s : AirKiss) (m n0 : Nat) (f0 f1 f2 f3 f4 f5 : Int)
    (hi : s.ignoreSeqCnt = 0) (hst : s.state = State.CheckingSeqData) :
    feed { s with seqNo := m, window := [] } (withSeq n0 [f0, f1, f2, f3, f4, f5]) =
      (parseFrame { s with
          seqNo := (n0 + 5) % 65536
          window := List.map (codeOf s.baseLength) [f0, f1, f2, f3, f4, f5] }).map
        (fun a => { a with window := shiftWindow a.window }) := by
  simp only [withSeq, feed]
  rw [Put_append s [] m f0 _ hi hst (Or.inl rfl) (by simp)]
  simp only [List.nil_append]
  rw [Put_append s _ _ f1 _ hi hst (Or.inr (seqBreak_succ n0)) (by simp)]
  simp only [List.singleton_append, List.cons_append, List.nil_append]
  rw [Put_append s _ _ f2 _ hi hst (Or.inr (seqBreak_succ (n0 + 1))) (by simp)]
  simp only [List.singleton_append, List.cons_append, List.nil_append]
  rw [Put_append s _ _ f3 _ hi hst (Or.inr (seqBreak_succ (n0 + 1 + 1))) (by simp)]
  simp only [List.singleton_append, List.cons_append, List.nil_append]
  rw [Put_append s _ _ f4 _ hi hst (Or.inr (seqBreak_succ (n0 + 1 + 1 + 1))) (by simp)]
  simp only [List.singleton_append, List.cons_append, List.nil_append]
  rw [Put_complete s _ _ f5 _ hi hst (seqBreak_succ (n0 + 1 + 1 + 1 + 1)) (by simp)]
  simp only [List.singleton_append, List.cons_append, List.nil_append, List.map_cons,
    List.map_nil]
  cases parseFrame _ <;> rfl

theorem codeOf_frameFor (baseLength : Int) (code : Nat) (h : code < 512) :
    codeOf baseLength (frameFor baseLength code) = (code : Int) := by
  unfold codeOf frameFor wrapInt
  split
  · norm_num
    omega
  · rfl

theorem getSeqAndData_group (ak : AirKiss) (crc7 idx d0 d1 d2 d3 : Nat)
    (hc : crc7 < 128) (hi : idx < 128) (h0 : d0 < 256) (h1 : d1 < 256) (h2 : d2 < 256)
    (h3 : d3 < 256)
    (hw : ak.window = (seqGroup crc7 idx d0 d1 d2 d3).map (fun (c : Nat) => (c : Int))) :
    getSeqAndData ak =
      if (mapGet ak.seqData idx).isSome || (idx : Int) > ak.seqDataCnt then some (ak, false)
      else if groupEnd ak idx < 1 || groupEnd ak idx > 6 then none
      else if crc7 != crc8 (((groupBuffer ak crc7 idx d0 d1 d2 d3).take
            (groupEnd ak idx).toNat).drop 1) &&& 0x7F then
        some ({ ak with window := [] }, false)
      else
        match ak.seqData with
        | none => none
        | some l =>
          if allPresent (some (mapSet l idx (groupBuffer ak crc7 idx d0 d1 d2 d3)))
              ak.seqDataCnt.toNat then
            some ({ ak with
              seqData := some (mapSet l idx (groupBuffer ak crc7 idx d0 d1 d2 d3))
              window := [] }, true)
          else
            some ({ ak with
              seqData := some (mapSet l idx (groupBuffer ak crc7 idx d0 d1 d2 d3))
              window := [] }, false) := by
  unfold getSeqAndData
  rw [hw, seqLoop_group ak crc7 idx d0 d1 d2 d3 hc hi h0 h1 h2 h3]
  by_cases hex : ((mapGet ak.seqData idx).isSome || decide ((idx : Int) > ak.seqDataCnt)) = true
  · simp only [hex, ↓reduceIte]
  · simp only [hex, Bool.false_eq_true, ↓reduceIte, List.getD_cons_succ, List.getD_cons_zero,
      windowSizeSeqData, Nat.cast_ofNat, groupEnd, groupBuffer]

theorem crc8_flip (xs : List Nat) (p b : Nat) (hp : p < xs.length) (hl : xs.length < 6)
    (hb : b < 8) :
    crc8 (xs.set p (xs.getD p 0 ^^^ 2 ^ b)) &&& 0x7F ≠ crc8 xs &&& 0x7F := by
  rw [set_xor_eq_zipWith xs p (2 ^ b) hp, crc8_xor _ _ (by simp), and_xor_right]
  intro h
  have h2 : crc8 ((List.replicate xs.length 0).set p (2 ^ b)) &&& 0x7F = 0 :=
    Nat.xor_right_inj.mp (h.trans (Nat.xor_zero _).symm)
  exact crc8_unit_ne_zero xs.length hl p hp b hb h2

theorem parseFrame_seqData_of_reject (ak a : AirKiss) (hst : ak.state = State.CheckingSeqData)
    (h : getSeqAndData ak = some (a, false)) : parseFrame ak = some a := by
  unfold parseFrame
  simp [hst, h]

theorem parseFrame_seqData_map (ak a : AirKiss) (hst : ak.state = State.CheckingSeqData)
    (h : parseFrame ak = some a) :
    ∃ a1 ok, getSeqAndData ak = some (a1, ok) ∧ a.seqData = a1.seqData := by
  unfold parseFrame at h
  simp only [hst] at h
  split at h
  · simp at h
  · rename_i a1 ok hg
    refine ⟨a1, ok, by assumption, ?_⟩
    repeat' split at h
    all_goals first
      | (simp at h; done)
      | (simp only [Option.some.injEq] at h; subst h; rfl)

theorem feed_record (s : AirKiss) (n0 crc7 idx d0 d1 d2 d3 : Nat)
    (hst : s.state = State.CheckingSeqData) (hi : s.ignoreSeqCnt = 0) (hw : s.window = [])
    (hc : crc7 < 128) (hidx : idx < 128) (h0 : d0 < 256) (h1 : d1 < 256) (h2 : d2 < 256)
    (h3 : d3 < 256) :
    feed s (withSeq n0 (recordFrames s.baseLength [crc7, idx, d0, d1, d2, d3])) =
      (parseFrame { s with
          seqNo := (n0 + 5) % 65536
          window := (seqGroup crc7 idx d0 d1 d2 d3).map (fun (c : Nat) => (c : Int)) }).map
        (fun a => { a with window := shiftWindow a.window }) := by
  have hs : s = { s with seqNo := s.seqNo, window := [] } := by
    cases s
    simp only at hw
    simp [hw]
  have h6 := feed_six s s.seqNo n0 (frameFor s.baseLength (0x80 + crc7))
    (frameFor s.baseLength (0x80 + idx)) (frameFor s.baseLength (0x100 + d0))
    (frameFor s.baseLength (0x100 + d1)) (frameFor s.baseLength (0x100 + d2))
    (frameFor s.baseLength (0x100 + d3)) hi hst
  rw [← hs] at h6
  simp only [List.map_cons, List.map_nil] at h6
  rw [codeOf_frameFor _ _ (by omega), codeOf_frameFor _ _ (by omega),
    codeOf_frameFor _ _ (by omega), codeOf_frameFor _ _ (by omega),
    codeOf_frameFor _ _ (by omega), codeOf_frameFor _ _ (by omega)] at h6
  simp only [recordFrames, seqGroup, List.map_cons, List.map_nil, List.getD_cons_succ,
    List.getD_cons_zero]
  exact h6

theorem two_pow_lt_of_lt (b k : Nat) (h : b < k) : 2 ^ b < 2 ^ k :=
  Nat.pow_lt_pow_right (by decide) h

theorem xor_two_pow_ne (x b : Nat) : x ^^^ 2 ^ b ≠ x := by
  intro h
  have h2 : 2 ^ b = 0 := Nat.xor_right_inj.mp (h.trans (Nat.xor_zero x).symm)
  exact (Nat.two_pow_pos b).ne' h2

/-- What the acceptance of a group tells about the decoder and the record. -/
theorem stored_group_facts (ak a : AirKiss) (crc7 idx d0 d1 d2 d3 : Nat)
    (hst : ak.state = State.CheckingSeqData)
    (hc : crc7 < 128) (hi : idx < 128) (h0 : d0 < 256) (h1 : d1 < 256) (h2 : d2 < 256)
    (h3 : d3 < 256)
    (hw : ak.window = (seqGroup crc7 idx d0 d1 d2 d3).map (fun (c : Nat) => (c : Int)))
    (hp : parseFrame ak = some a) (hne : a.seqData ≠ ak.seqData) :
    ((mapGet ak.seqData idx).isSome || decide ((idx : Int) > ak.seqDataCnt)) = false ∧
    (decide (groupEnd ak idx < 1) || decide (groupEnd ak idx > 6)) = false ∧
    crc7 = crc8 (((groupBuffer ak crc7 idx d0 d1 d2 d3).take (groupEnd ak idx).toNat).drop 1)
      &&& 0x7F := by
  obtain ⟨a1, ok, hg, hsd⟩ := parseFrame_seqData_map ak a hst hp
  rw [hsd] at hne
  rw [getSeqAndData_group ak crc7 idx d0 d1 d2 d3 hc hi h0 h1 h2 h3 hw] at hg
  by_cases hex : ((mapGet ak.seqData idx).isSome || decide ((idx : Int) > ak.seqDataCnt)) = true
  · rw [if_pos hex] at hg
    simp only [Option.some.injEq, Prod.mk.injEq] at hg
    exact absurd (by rw [← hg.1]) hne
  · rw [if_neg hex] at hg
    by_cases he : (decide (groupEnd ak idx < 1) || decide (groupEnd ak idx > 6)) = true
    · rw [if_pos he] at hg
      simp at hg
    · rw [if_neg he] at hg
      by_cases hcrc : (crc7 != crc8 (((groupBuffer ak crc7 idx d0 d1 d2 d3).take
          (groupEnd ak idx).toNat).drop 1) &&& 0x7F) = true
      · rw [if_pos hcrc] at hg
        simp only [Option.some.injEq, Prod.mk.injEq] at hg
        exact absurd (by rw [← hg.1]) hne
      · refine ⟨by simpa using hex, by simpa using he, ?_⟩
        simpa using hcrc

/-! ## Reassembly -/
theorem mapGetD_length (m : Option (List (Nat × List Nat))) (hwf : recordsWf m = true)
    (k : Nat) : (mapGetD m k).length = 6 := by
  unfold mapGetD mapGet
  cases m with
  | none => simp [windowSizeSeqData]
  | some l =>
    simp only [recordsWf, List.all_eq_true, beq_iff_eq, windowSizeSeqData] at hwf
    induction l with
    | nil => simp [windowSizeSeqData]
    | cons kv l ih =>
      obtain ⟨k1, v1⟩ := kv
      simp only [List.lookup_cons]
      by_cases hk : (k == k1) = true
      · simp only [hk, Option.getD_some]
        exact hwf (k1, v1) (List.mem_cons_self _ _)
      · simp only [hk]
        exact ih (fun x hx => hwf x (List.mem_cons_of_mem _ hx))

theorem assemble_length (ak : AirKiss) (hwf : recordsWf ak.seqData = true) :
    (assemble ak).length = 4 * ak.seqDataCnt.toNat := by
  unfold assemble
  generalize ak.seqDataCnt.toNat = n
  induction n with
  | zero => simp
  | succ n ih =>
    rw [List.range_succ, List.flatMap_append, List.length_append, ih]
    simp only [List.flatMap_cons, List.flatMap_nil, List.append_nil, List.length_drop,
      mapGetD_length _ hwf]
    omega

theorem seqStep_length (ak : AirKiss) (i : Nat) (v : Int) (tb tb1 : List Nat)
    (h : seqStep ak i v tb = some (some tb1)) : tb1.length = tb.length := by
  unfold seqStep at h
  split at h <;> (try simp only [] at h) <;> split_ifs at h <;>
    simp only [Option.some.injEq, reduceCtorEq] at h <;> subst h <;> simp

theorem seqLoop_length (ak : AirKiss) (w : List Int) :
    ∀ (i : Nat) (tb tb1 : List Nat), seqLoop ak i w tb = some (some tb1) →
      tb1.length = tb.length := by
  induction w with
  | nil =>
    intro i tb tb1 h
    simp only [seqLoop, Option.some.injEq] at h
    rw [h]
  | cons v rest ih =>
    intro i tb tb1 h
    simp only [seqLoop] at h
    split at h
    · simp at h
    · simp at h
    · rename_i tb2 hs
      rw [ih _ _ _ h, seqStep_length ak i v tb tb2 hs]

theorem getSeqAndData_true (ak a : AirKiss) (h : getSeqAndData ak = some (a, true)) :
    ∃ l tb, seqLoop ak 0 ak.window (List.replicate windowSizeSeqData 0) = some (some tb) ∧
      ak.seqData = some l ∧
      a = { ak with seqData := some (mapSet l (tb.getD 1 0) tb), window := [] } := by
  unfold getSeqAndData at h
  split at h
  · simp at h
  · simp at h
  · rename_i tb hloop
    simp only [] at h
    repeat' split at h
    all_goals first
      | (simp at h; done)
      | (simp only [Option.some.injEq, Prod.mk.injEq] at h
         obtain ⟨h1, _⟩ := h
         subst h1
         exact ⟨_, tb, hloop, by assumption, rfl⟩)

theorem parseFrame_seqData (ak : AirKiss) (hst : ak.state = State.CheckingSeqData) :
    parseFrame ak =
      match getSeqAndData ak with
      | none => none
      | some (a, done) =>
        if !done then some a
        else if a.seqDataCnt * 4 < 0 then none
        else if a.pwdLength < 0 || a.pwdLength > ((assemble a).length : Int) then none
        else if a.pwdLength ≥ ((assemble a).length : Int) then none
        else if a.doneClosed then none
        else some (reassembled a) := by
  unfold parseFrame
  rw [hst]
  rfl

/-- C4 (amended): reassembly has no bounds check of its own.  Let a `Put` in
state `CheckingSeqData` reach the parser (nothing ignored, window full) and let
`getSeqAndData` store the last missing chunk (`ok = true`, decoder `a`).  Then
`D = assemble a` has `4 * seqDataCnt` bytes; if `pwdLength + 1 > 4 * seqDataCnt`
(in particular when `totalLength = 0`, where `D` is empty) the `Put` panics on
the slice or index expression and does not return, so the decoder is neither
`Done` nor pending; if `0 ≤ pwdLength` and `pwdLength + 1 ≤ 4 * seqDataCnt` (and
the channel is still open) the `Put` moves the decoder to `Done` with
`Password = D[:pwdLength]`, `RandomByte = D[pwdLength]`, `SSID = D[pwdLength+1:]`,
whether or not `pwdLength > totalLength - 1`. -/
theorem reassembly_not_bounds_checked (s a : AirKiss) (frameLen : Int) (seqNo : Nat)
    (hst : s.state = State.CheckingSeqData) (hi : s.ignoreSeqCnt = 0)
    (hfull : ¬ (nextWindow s frameLen seqNo).length < windowSize s.state)
    (hwf : recordsWf s.seqData = true)
    (hlast : getSeqAndData { s with seqNo := seqNo, window := nextWindow s frameLen seqNo }
      = some (a, true)) :
    (assemble a).length = 4 * s.seqDataCnt.toNat ∧
    (s.pwdLength + 1 > 4 * s.seqDataCnt → Put s frameLen seqNo = none) ∧
    (0 ≤ s.pwdLength → s.pwdLength + 1 ≤ 4 * s.seqDataCnt → s.doneClosed = false →
      Put s frameLen seqNo = some (reassembled a)) := by
  obtain ⟨l, tb, hloop, hl, ha⟩ := getSeqAndData_true _ a hlast
  have htb : tb.length = 6 := by
    rw [seqLoop_length _ _ _ _ _ hloop]
    simp [windowSizeSeqData]
  have hwfa : recordsWf a.seqData = true := by
    rw [ha]
    simp only at hl
    rw [hl] at hwf
    simp only [recordsWf, mapSet, List.all_cons, Bool.and_eq_true, beq_iff_eq, windowSizeSeqData,
      htb, true_and] at hwf ⊢
    exact hwf
  have hcnt : a.seqDataCnt = s.seqDataCnt := by rw [ha]
  have hpwd : a.pwdLength = s.pwdLength := by rw [ha]
  have hdc : a.doneClosed = s.doneClosed := by rw [ha]
  have hlen : (assemble a).length = 4 * s.seqDataCnt.toNat := by
    rw [assemble_length a hwfa, hcnt]
  have hlenZ : ((assemble a).length : Int) = 4 * (s.seqDataCnt.toNat : Int) := by
    rw [hlen]; push_cast; rfl
  have hput : Put s frameLen seqNo =
      (parseFrame { s with seqNo := seqNo, window := nextWindow s frameLen seqNo }).map
        (fun a => { a with window := shiftWindow a.window }) := Put_parse s frameLen seqNo hi hfull
  rw [hput, parseFrame_seqData { s with seqNo := seqNo, window := nextWindow s frameLen seqNo } hst,
    hlast]
  simp only [Bool.not_true, Bool.false_eq_true, ↓reduceIte, hcnt, hpwd, hdc, Bool.or_eq_true,
    decide_eq_true_eq]
  refine ⟨hlen, ?_, ?_⟩
  · intro h
    split_ifs <;> first | rfl | (exfalso; omega)
  · intro h0 h1 h2
    rw [if_neg (by omega), if_neg (by omega), if_neg (by omega), if_neg (by simp [h2])]
    simp [reassembled, shiftWindow]

/-! ## Rejection of corrupted groups -/
theorem parseFrame_group_reject (ak : AirKiss) (crc7 idx d0 d1 d2 d3 : Nat)
    (hst : ak.state = State.CheckingSeqData)
    (hc : crc7 < 128) (hi : idx < 128) (h0 : d0 < 256) (h1 : d1 < 256) (h2 : d2 < 256)
    (h3 : d3 < 256)
    (hw : ak.window = (seqGroup crc7 idx d0 d1 d2 d3).map (fun (c : Nat) => (c : Int)))
    (hex : ((mapGet ak.seqData idx).isSome || decide ((idx : Int) > ak.seqDataCnt)) = false)
    (he : (decide (groupEnd ak idx < 1) || decide (groupEnd ak idx > 6)) = false)
    (hcrc : crc7 ≠ crc8 (((groupBuffer ak crc7 idx d0 d1 d2 d3).take
        (groupEnd ak idx).toNat).drop 1) &&& 0x7F) :
    parseFrame ak = some { ak with window := [] } := by
  apply parseFrame_seqData_of_reject ak _ hst
  rw [getSeqAndData_group ak crc7 idx d0 d1 d2 d3 hc hi h0 h1 h2 h3 hw]
  rw [if_neg (by simp [hex]), if_neg (by simp [he]), if_pos (by simpa using hcrc)]

theorem stored_record_facts (s a : AirKiss) (m crc7 idx d0 d1 d2 d3 : Nat)
    (hst : s.state = State.CheckingSeqData)
    (hc : crc7 < 128) (hi : idx < 128) (h0 : d0 < 256) (h1 : d1 < 256) (h2 : d2 < 256)
    (h3 : d3 < 256)
    (hp : parseFrame { s with
        seqNo := m
        window := (seqGroup crc7 idx d0 d1 d2 d3).map (fun (c : Nat) => (c : Int)) } = some a)
    (hne : a.seqData ≠ s.seqData) :
    ((mapGet s.seqData idx).isSome || decide ((idx : Int) > s.seqDataCnt)) = false ∧
    (decide (groupEnd s idx < 1) || decide (groupEnd s idx > 6)) = false ∧
    crc7 = crc8 (((groupBuffer s crc7 idx d0 d1 d2 d3).take (groupEnd s idx).toNat).drop 1)
      &&& 0x7F :=
  stored_group_facts { s with
      seqNo := m
      window := (seqGroup crc7 idx d0 d1 d2 d3).map (fun (c : Nat) => (c : Int)) }
    a crc7 idx d0 d1 d2 d3 hst hc hi h0 h1 h2 h3 rfl hp hne

theorem feed_record_reject (s : AirKiss) (n0 crc7 idx d0 d1 d2 d3 : Nat)
    (hst : s.state = State.CheckingSeqData) (hi : s.ignoreSeqCnt = 0) (hw : s.window = [])
    (hc : crc7 < 128) (hidx : idx < 128) (h0 : d0 < 256) (h1 : d1 < 256) (h2 : d2 < 256)
    (h3 : d3 < 256)
    (hex : ((mapGet s.seqData idx).isSome || decide ((idx : Int) > s.seqDataCnt)) = false)
    (he : (decide (groupEnd s idx < 1) || decide (groupEnd s idx > 6)) = false)
    (hcrc : crc7 ≠ crc8 (((groupBuffer s crc7 idx d0 d1 d2 d3).take
        (groupEnd s idx).toNat).drop 1) &&& 0x7F) :
    feed s (withSeq n0 (recordFrames s.baseLength [crc7, idx, d0, d1, d2, d3]))
      = some { s with seqNo := (n0 + 5) % 65536, window := [] } := by
  rw [feed_record s n0 crc7 idx d0 d1 d2 d3 hst hi hw hc hidx h0 h1 h2 h3]
  rw [parseFrame_group_reject { s with
      seqNo := (n0 + 5) % 65536
      window := (seqGroup crc7 idx d0 d1 d2 d3).map (fun (c : Nat) => (c : Int)) }
    crc7 idx d0 d1 d2 d3 hst hc hidx h0 h1 h2 h3 rfl hex he hcrc]
  simp [shiftWindow]

set_option linter.unnecessarySeqFocus false in
/-- C9 (amended): let a decoder in state `CheckingSeqData` with an empty window
that ignores nothing accept and store the group of the record
`[crc7, idx, d0, d1, d2, d3]`, put as six frames with consecutive sequence
numbers.  Flip bit `b` of the byte at position `p` of the record, where either
`p = 0` (the `crc7`, `b < 7`) or `p = 2 .. 5` is a data byte (`b < 8`) that is
not a padding byte: any data byte of a chunk that is not the last, or, when
`totalLength % 4 ≠ 0`, one of the first `totalLength % 4` data bytes of the last
chunk.  Put in the same way, the flipped group is rejected: the six `Put` calls
return the decoder unchanged but for `seqNo`, in particular in state
`CheckingSeqData` with the same `seqData`.  The data bytes of the last chunk of
a payload whose length is a multiple of four are not part of this statement. -/
theorem crc_rejection (s s1 : AirKiss) (n0 crc7 idx d0 d1 d2 d3 p b : Nat)
    (hst : s.state = State.CheckingSeqData) (hi : s.ignoreSeqCnt = 0) (hw : s.window = [])
    (hc : crc7 < 128) (hidx : idx < 128) (h0 : d0 < 256) (h1 : d1 < 256) (h2 : d2 < 256)
    (h3 : d3 < 256)
    (hfeed : feed s (withSeq n0 (recordFrames s.baseLength [crc7, idx, d0, d1, d2, d3]))
      = some s1)
    (hstored : s1.seqData ≠ s.seqData)
    (hflip : (p = 0 ∧ b < 7) ∨ (2 ≤ p ∧ p < 6 ∧ b < 8 ∧
      ((idx : Int) ≠ s.seqDataCnt - 1 ∨
        (Int.tmod s.totalLength 4 ≠ 0 ∧ (p : Int) - 2 < Int.tmod s.totalLength 4)))) :
    feed s (withSeq n0 (recordFrames s.baseLength (flipBit [crc7, idx, d0, d1, d2, d3] p b)))
      = some { s with seqNo := (n0 + 5) % 65536, window := [] } := by
  have hflip : (p = 0 ∧ b < 7) ∨ (2 ≤ p ∧ p < 6 ∧ b < 8 ∧
      ((idx : Int) ≠ s.seqDataCnt - 1 ∨ (p : Int) - 2 < Int.tmod s.totalLength 4)) :=
    hflip.imp id (fun h => ⟨h.1, h.2.1, h.2.2.1, h.2.2.2.imp id (fun q => q.2)⟩)
  rw [feed_record s n0 crc7 idx d0 d1 d2 d3 hst hi hw hc hidx h0 h1 h2 h3] at hfeed
  simp only [Option.map_eq_some'] at hfeed
  obtain ⟨a, hp, rfl⟩ := hfeed
  obtain ⟨hex, he, hcrc⟩ := stored_record_facts s a _ crc7 idx d0 d1 d2 d3 hst hc hidx h0 h1 h2 h3
    hp hstored
  have hd0 : ∀ b, b < 8 → d0 ^^^ 2 ^ b < 256 := fun b hb =>
    @Nat.xor_lt_two_pow _ _ 8 h0 (two_pow_lt_of_lt b 8 hb)
  have hd1 : ∀ b, b < 8 → d1 ^^^ 2 ^ b < 256 := fun b hb =>
    @Nat.xor_lt_two_pow _ _ 8 h1 (two_pow_lt_of_lt b 8 hb)
  have hd2 : ∀ b, b < 8 → d2 ^^^ 2 ^ b < 256 := fun b hb =>
    @Nat.xor_lt_two_pow _ _ 8 h2 (two_pow_lt_of_lt b 8 hb)
  have hd3 : ∀ b, b < 8 → d3 ^^^ 2 ^ b < 256 := fun b hb =>
    @Nat.xor_lt_two_pow _ _ 8 h3 (two_pow_lt_of_lt b 8 hb)
  have htail : ∀ c : Nat, ((groupBuffer s c idx d0 d1 d2 d3).take (groupEnd s idx).toNat).drop 1
      = ((groupBuffer s crc7 idx d0 d1 d2 d3).take (groupEnd s idx).toNat).drop 1 := by
    intro c
    cases (groupEnd s idx).toNat <;> simp [groupBuffer]
  rcases hflip with ⟨rfl, hb⟩ | ⟨hp2, hp6, hb, hcov⟩
  · have hc' : crc7 ^^^ 2 ^ b < 128 := @Nat.xor_lt_two_pow _ _ 7 hc (two_pow_lt_of_lt b 7 hb)
    simp only [flipBit, List.set_cons_zero, List.getD_cons_zero]
    apply feed_record_reject s n0 (crc7 ^^^ 2 ^ b) idx d0 d1 d2 d3 hst hi hw hc' hidx h0 h1 h2 h3
      hex he
    rw [htail, ← hcrc]
    exact xor_two_pow_ne crc7 b
  · interval_cases p
    · simp only [flipBit, List.set_cons_zero, List.set_cons_succ, List.getD_cons_succ,
        List.getD_cons_zero]
      apply feed_record_reject s n0 crc7 idx (d0 ^^^ 2 ^ b) d1 d2 d3 hst hi hw hc hidx
        (hd0 b hb) h1 h2 h3 hex he
      simp only [groupEnd, groupBuffer, keptByte] at hcrc he ⊢
      by_cases hl : ((idx : Int) == s.seqDataCnt - 1) = true
      · have hcov2 : ((2 : Nat) : Int) - 2 < Int.tmod s.totalLength 4 := by
          rcases hcov with h | h
          · exact absurd (by simpa using hl) h
          · exact h
        simp only [hl, ↓reduceIte, Bool.true_and] at hcrc he ⊢
        generalize Int.tmod s.totalLength 4 = r at hcrc he hcov2 ⊢
        have hr : r = 1 ∨ r = 2 ∨ r = 3 ∨ r = 4 := by
          simp only [Bool.or_eq_false_iff, decide_eq_false_iff_not] at he
          push_cast at hcov2
          omega
        rcases hr with rfl | rfl | rfl | rfl <;> simp at hcov2 <;> simp at hcrc ⊢ <;>
          rw [hcrc] <;>
          first
          | exact fun h => crc8_flip [idx, d0] 1 b (by simp) (by simp) hb h.symm
          | exact fun h => crc8_flip [idx, d0, d1] 1 b (by simp) (by simp) hb h.symm
          | exact fun h => crc8_flip [idx, d0, d1, d2] 1 b (by simp) (by simp) hb h.symm
          | exact fun h => crc8_flip [idx, d0, d1, d2, d3] 1 b (by simp) (by simp) hb h.symm
      · simp only [hl, Bool.false_eq_true, ↓reduceIte, Bool.false_and] at hcrc he ⊢
        simp at hcrc ⊢
        rw [hcrc]
        exact fun h => crc8_flip [idx, d0, d1, d2, d3] 1 b (by simp) (by simp) hb h.symm
    · simp only [flipBit, List.set_cons_zero, List.set_cons_succ, List.getD_cons_succ,
        List.getD_cons_zero]
      apply feed_record_reject s n0 crc7 idx d0 (d1 ^^^ 2 ^ b) d2 d3 hst hi hw hc hidx
        h0 (hd1 b hb) h2 h3 hex he
      simp only [groupEnd, groupBuffer, keptByte] at hcrc he ⊢
      by_cases hl : ((idx : Int) == s.seqDataCnt - 1) = true
      · have hcov2 : ((3 : Nat) : Int) - 2 < Int.tmod s.totalLength 4 := by
          rcases hcov with h | h
          · exact absurd (by simpa using hl) h
          · exact h
        simp only [hl, ↓reduceIte, Bool.true_and] at hcrc he ⊢
        generalize Int.tmod s.totalLength 4 = r at hcrc he hcov2 ⊢
        have hr : r = 1 ∨ r = 2 ∨ r = 3 ∨ r = 4 := by
          simp only [Bool.or_eq_false_iff, decide_eq_false_iff_not] at he
          push_cast at hcov2
          omega
        rcases hr with rfl | rfl | rfl | rfl <;> simp at hcov2 <;> simp at hcrc ⊢ <;>
          rw [hcrc] <;>
          first
          | exact fun h => crc8_flip [idx, d0, d1] 2 b (by simp) (by simp) hb h.symm
          | exact fun h => crc8_flip [idx, d0, d1, d2] 2 b (by simp) (by simp) hb h.symm
          | exact fun h => crc8_flip [idx, d0, d1, d2, d3] 2 b (by simp) (by simp) hb h.symm
      · simp only [hl, Bool.false_eq_true, ↓reduceIte, Bool.false_and] at hcrc he ⊢
        simp at hcrc ⊢
        rw [hcrc]
        exact fun h => crc8_flip [idx, d0, d1, d2, d3] 2 b (by simp) (by simp) hb h.symm
    · simp only [flipBit, List.set_cons_zero, List.set_cons_succ, List.getD_cons_succ,
        List.getD_cons_zero]
      apply feed_record_reject s n0 crc7 idx d0 d1 (d2 ^^^ 2 ^ b) d3 hst hi hw hc hidx
        h0 h1 (hd2 b hb) h3 hex he
      simp only [groupEnd, groupBuffer, keptByte] at hcrc he ⊢
      by_cases hl : ((idx : Int) == s.seqDataCnt - 1) = true
      · have hcov2 : ((4 : Nat) : Int) - 2 < Int.tmod s.totalLength 4 := by
          rcases hcov with h | h
          · exact absurd (by simpa using hl) h
          · exact h
        simp only [hl, ↓reduceIte, Bool.true_and] at hcrc he ⊢
        generalize Int.tmod s.totalLength 4 = r at hcrc he hcov2 ⊢
        have hr : r = 1 ∨ r = 2 ∨ r = 3 ∨ r = 4 := by
          simp only [Bool.or_eq_false_iff, decide_eq_false_iff_not] at he
          push_cast at hcov2
          omega
        rcases hr with rfl | rfl | rfl | rfl <;> simp at hcov2 <;> simp at hcrc ⊢ <;>
          rw [hcrc] <;>
          first
          | exact fun h => crc8_flip [idx, d0, d1, d2] 3 b (by simp) (by simp) hb h.symm
          | exact fun h => crc8_flip [idx, d0, d1, d2, d3] 3 b (by simp) (by simp) hb h.symm
      · simp only [hl, Bool.false_eq_true, ↓reduceIte, Bool.false_and] at hcrc he ⊢
        simp at hcrc ⊢
        rw [hcrc]
        exact fun h => crc8_flip [idx, d0, d1, d2, d3] 3 b (by simp) (by simp) hb h.symm
    · simp only [flipBit, List.set_cons_zero, List.set_cons_succ, List.getD_cons_succ,
        List.getD_cons_zero]
      apply feed_record_reject s n0 crc7 idx d0 d1 d2 (d3 ^^^ 2 ^ b) hst hi hw hc hidx
        h0 h1 h2 (hd3 b hb) hex he
      simp only [groupEnd, groupBuffer, keptByte] at hcrc he ⊢
      by_cases hl : ((idx : Int) == s.seqDataCnt - 1) = true
      · have hcov2 : ((5 : Nat) : Int) - 2 < Int.tmod s.totalLength 4 := by
          rcases hcov with h | h
          · exact absurd (by simpa using hl) h
          · exact h
        simp only [hl, ↓reduceIte, Bool.true_and] at hcrc he ⊢
        generalize Int.tmod s.totalLength 4 = r at hcrc he hcov2 ⊢
        have hr : r = 1 ∨ r = 2 ∨ r = 3 ∨ r = 4 := by
          simp only [Bool.or_eq_false_iff, decide_eq_false_iff_not] at he
          push_cast at hcov2
          omega
        rcases hr with rfl | rfl | rfl | rfl <;> simp at hcov2 <;> simp at hcrc ⊢ <;>
          rw [hcrc] <;>
          first
          | exact fun h => crc8_flip [idx, d0, d1, d2, d3] 4 b (by simp) (by simp) hb h.symm
      · simp only [hl, Bool.false_eq_true, ↓reduceIte, Bool.false_and] at hcrc he ⊢
        simp at hcrc ⊢
        rw [hcrc]
        exact fun h => crc8_flip [idx, d0, d1, d2, d3] 4 b (by simp) (by simp) hb h.symm

set_option maxRecDepth 100000 in
/-- C9, an instance: `partialLastDecoder` (`totalLength = 7`) stores the record
`[72, 1, 0x00, 0x61, 0x62, 0x00]` of its last chunk and rejects it when bit 0 of
the second data byte `0x61` is flipped. -/
theorem crc_rejection_witness :
    feed partialLastDecoder
        (withSeq 63 (recordFrames partialLastDecoder.baseLength [72, 1, 0x00, 0x61, 0x62, 0x00]))
      = some { partialLastDecoder with
          seqNo := 68
          seqData := some [(1, [72, 1, 0x00, 0x61, 0x62, 0x00])] }
    ∧ feed partialLastDecoder
        (withSeq 63 (recordFrames partialLastDecoder.baseLength
          (flipBit [72, 1, 0x00, 0x61, 0x62, 0x00] 3 0)))
      = some { partialLastDecoder with seqNo := (63 + 5) % 65536, window := [] } :=
  ⟨by decide,
    crc_rejection partialLastDecoder
      { partialLastDecoder with
        seqNo := 68
        seqData := some [(1, [72, 1, 0x00, 0x61, 0x62, 0x00])] }
      63 72 1 0x00 0x61 0x62 0x00 3 0 rfl rfl rfl (by decide) (by decide) (by decide)
      (by decide) (by decide) (by decide) (by decide) (by decide)
      (Or.inr ⟨by decide, by decide, by decide, Or.inr ⟨by decide, by decide⟩⟩)⟩

set_option maxRecDepth 100000 in
/-- C9 (as stated): a flipped data bit that is not rejected.  `partialLastDecoder`
(`totalLength = 7`, reachable from `New()`) stores the record
`[72, 1, 0x00, 0x61, 0x62, 0x00]` of its last chunk, and it stores the group just
as well when bit 0 of the fourth data byte is flipped: that byte lies behind
`totalLength` and is neither checked nor covered by the CRC. -/
theorem crc_rejection_padding_counterexample :
    Reachable partialLastDecoder
    ∧ partialLastDecoder.state = State.CheckingSeqData
    ∧ mapGet partialLastDecoder.seqData 1 = none
    ∧ (feed partialLastDecoder
        (withSeq 63 (recordFrames 99 [72, 1, 0x00, 0x61, 0x62, 0x00]))).map
          (fun a => (a.state, mapGet a.seqData 1))
        = some (State.CheckingSeqData, some [72, 1, 0x00, 0x61, 0x62, 0x00])
    ∧ flipBit [72, 1, 0x00, 0x61, 0x62, 0x00] 5 0 = [72, 1, 0x00, 0x61, 0x62, 0x01]
    ∧ (feed partialLastDecoder
        (withSeq 63 (recordFrames 99 (flipBit [72, 1, 0x00, 0x61, 0x62, 0x00] 5 0)))).map
          (fun a => (a.state, mapGet a.seqData 1))
        = some (State.CheckingSeqData, some [72, 1, 0x00, 0x61, 0x62, 0x00]) := by
  have h : feed New (withSeq 1 (framesAt 99 (headerPhase guideCodes 7 71 4)))
      = some partialLastDecoder := by decide
  exact ⟨reachable_feed _ _ _ Reachable.init (by decide) h, rfl, by decide, by decide,
    by decide, by decide⟩

set_option maxRecDepth 100000 in
/-- C4 (as stated): a `Put` that stores the last missing chunk while
`pwdLength > totalLength - 1` and still moves the decoder to `Done`
(`overlongPwdDecoder`, reachable from `New()`, `totalLength = 5`, `pwdLength = 6`),
and one with `totalLength = 0` that panics instead of leaving the decoder
pending (`emptyPayloadDecoder`, reachable from `New()`). -/
theorem reassembly_bounds_counterexample :
    Reachable overlongPwdDecoder
    ∧ overlongPwdDecoder.state = State.CheckingSeqData
    ∧ overlongPwdDecoder.pwdLength > overlongPwdDecoder.totalLength - 1
    ∧ (Put overlongPwdDecoder 355 74).map (fun a => (a.state, a.Password, a.RandomByte, a.SSID))
        = some (State.Done, [1, 2, 3, 4, 5, 0], 0, [0])
    ∧ Reachable emptyPayloadDecoder
    ∧ emptyPayloadDecoder.state = State.CheckingSeqData
    ∧ emptyPayloadDecoder.totalLength = 0
    ∧ Put emptyPayloadDecoder 359 68 = none := by
  have h1 : feed New (withSeq 1 ((framesAt 99 (headerPhase guideCodes 5 0 6
      ++ chunkCodes 0 [1, 2, 3, 4] ++ chunkCodes 1 [5])).take 73))
      = some overlongPwdDecoder := by decide
  have h2 : feed New (withSeq 1 ((framesAt 99 (headerPhase guideCodes 0 0 0
      ++ chunkCodes 0 [1, 2, 3, 4])).take 67))
      = some emptyPayloadDecoder := by decide
  exact ⟨reachable_feed _ _ _ Reachable.init (by decide) h1, rfl, by decide, by decide,
    reachable_feed _ _ _ Reachable.init (by decide) h2, rfl, rfl, by decide⟩

set_option maxRecDepth 100000 in
/-- C4, two instances: `overlongPwdDecoder` moves to `Done` on the sixth code of
chunk 1, and `emptyPayloadDecoder` panics on the sixth code of its group. -/
theorem reassembly_not_bounds_checked_witness :
    (getSeqAndData { overlongPwdDecoder with
          seqNo := 74
          window := nextWindow overlongPwdDecoder 355 74 } = some (overlongPwdStored, true)
      ∧ Put overlongPwdDecoder 355 74 = some (reassembled overlongPwdStored))
    ∧ (getSeqAndData { emptyPayloadDecoder with
          seqNo := 68
          window := nextWindow emptyPayloadDecoder 359 68 } = some (emptyPayloadStored, true)
      ∧ Put emptyPayloadDecoder 359 68 = none) :=
  ⟨⟨by decide,
      (reassembly_not_bounds_checked overlongPwdDecoder overlongPwdStored 355 74 rfl rfl
        (by decide) (by decide) (by decide)).2.2 (by decide) (by decide) rfl⟩,
    ⟨by decide,
      (reassembly_not_bounds_checked emptyPayloadDecoder emptyPayloadStored 359 68 rfl rfl
        (by decide) (by decide) (by decide)).2.1 (by decide)⟩⟩

/-! ## Duplicate chunks -/

/-- C14: duplicate chunks are dropped.  Let a decoder in state `CheckingSeqData`
that ignores nothing receive an observation that completes the window
`[c0, c1, c2, c3, c4, c5]`, and let the key `k` of the index field `c1 & 0x7F` be
present in `seqData`.  Whatever the other codes are, the `Put` returns the
decoder with the shifted window and the new `seqNo`: `seqData`, the state and
the outputs are as before. -/
theorem duplicate_chunk_dropped (s : AirKiss) (frameLen : Int) (seqNo : Nat)
    (c0 c1 c2 c3 c4 c5 : Int) (k : Nat)
    (hst : s.state = State.CheckingSeqData) (hi : s.ignoreSeqCnt = 0)
    (hw : nextWindow s frameLen seqNo = [c0, c1, c2, c3, c4, c5])
    (hk : toByte (Int.land c1 0x7F) = k) (hpresent : (mapGet s.seqData k).isSome = true) :
    Put s frameLen seqNo = some { s with
      seqNo := seqNo
      window := shiftWindow [c0, c1, c2, c3, c4, c5] } := by
  have hput := Put_parse s frameLen seqNo hi
    (by rw [hw, hst]; simp [windowSize, windowSizeSeqData])
  have hloop : seqLoop { s with seqNo := seqNo, window := [c0, c1, c2, c3, c4, c5] } 0
      [c0, c1, c2, c3, c4, c5] (List.replicate windowSizeSeqData 0) = some none := by
    simp only [seqLoop, seqStep, windowSizeSeqData, List.replicate]
    by_cases h0 : Int.land c0 0x0180 = 0x0080
    · by_cases h1 : Int.land c1 0x0180 = 0x0080
      · simp [h0, h1, hk, hpresent]
      · simp [h0, h1]
    · simp [h0]
  have hget : getSeqAndData { s with seqNo := seqNo, window := [c0, c1, c2, c3, c4, c5] }
      = some ({ s with seqNo := seqNo, window := [c0, c1, c2, c3, c4, c5] }, false) := by
    unfold getSeqAndData
    simp only [hloop]
  rw [hw, parseFrame_seqData_of_reject
    { s with seqNo := seqNo, window := [c0, c1, c2, c3, c4, c5] } _ hst hget] at hput
  exact hput

set_option maxRecDepth 100000 in
/-- C14, an instance: `duplicateChunkDecoder` holds chunk 0 and drops a second
group of index 0 whose `crc7` is valid. -/
theorem duplicate_chunk_dropped_witness :
    mapGet duplicateChunkDecoder.seqData 0 = some [76, 0, 0x74, 0x65, 0x73, 0x74]
    ∧ crc8 [0, 1, 2, 3, 4] &&& 0x7F = 116
    ∧ Put duplicateChunkDecoder 359 74 = some { duplicateChunkDecoder with
        seqNo := 74
        window := shiftWindow [244, 128, 257, 258, 259, 260] } :=
  ⟨by decide, by decide,
    duplicate_chunk_dropped duplicateChunkDecoder 359 74 244 128 257 258 259 260 0 rfl rfl
      (by decide) (by decide) (by decide)⟩

/-! ## `crc8` is linear over xor: the claim -/

theorem crc8_replicate_zero (n : Nat) : crc8 (List.replicate n 0) = 0 := by
  have hz : List.zipWith (fun p q => p ^^^ q) (List.replicate n 0) (List.replicate n 0)
      = List.replicate n 0 := by
    induction n with
    | zero => rfl
    | succ k ih => simp [List.replicate_succ, ih]
  have h := crc8_xor (List.replicate n 0) (List.replicate n 0) rfl
  rw [hz, Nat.xor_self] at h
  exact h

/-- C20: `crc8` is linear over xor: for buffers `a` and `b` of equal length the
`crc8` of their bytewise xor is the xor of their `crc8` values; consequently the
`crc8` of a buffer of zero bytes, of any length, is `0x00`. -/
theorem crc8_xor_linear (a b : List Nat) (h : a.length = b.length) :
    crc8 (List.zipWith (fun p q => p ^^^ q) a b) = crc8 a ^^^ crc8 b ∧
      ∀ n : Nat, crc8 (List.replicate n 0) = 0x00 :=
  ⟨crc8_xor a b h, crc8_replicate_zero⟩

set_option maxRecDepth 100000 in
/-- C20, an instance: the buffers `"12"` and `"ab"`. -/
theorem crc8_xor_linear_witness :
    [0x31, 0x32].length = [0x61, 0x62].length ∧
      crc8 (List.zipWith (fun p q => p ^^^ q) [0x31, 0x32] [0x61, 0x62])
        = crc8 [0x31, 0x32] ^^^ crc8 [0x61, 0x62] :=
  ⟨rfl, (crc8_xor_linear [0x31, 0x32] [0x61, 0x62] rfl).1⟩

/-! ## Ignored observations -/

theorem feed_ignored (obs : List (Int × Nat)) :
    ∀ s : AirKiss, obs ≠ [] → obs.length ≤ s.ignoreSeqCnt →
      feed s obs = some { s with
        seqNo := lastSeqNo s.seqNo obs
        window := []
        ignoreSeqCnt := s.ignoreSeqCnt - obs.length } := by
  induction obs with
  | nil => intro s h; exact absurd rfl h
  | cons o rest ih =>
    intro s _ hlen
    obtain ⟨f, n⟩ := o
    simp only [List.length_cons] at hlen
    simp only [feed]
    rw [Put_ignored s f n (by omega)]
    simp only
    by_cases hr : rest = []
    · subst hr
      simp [feed, lastSeqNo]
    · rw [ih _ hr (by simp only; omega)]
      simp only [lastSeqNo, List.length_cons]
      congr 2
      omega

theorem three_lt_windowSize (st : State) : 3 < windowSize st := by
  cases st <;> decide

theorem Put_first_code (s : AirKiss) (frameLen : Int) (seqNo : Nat) (hi : s.ignoreSeqCnt = 0)
    (hw : s.window = []) :
    Put s frameLen seqNo
      = some { s with seqNo := seqNo, window := [codeOf s.baseLength frameLen] } := by
  have hnw : nextWindow s frameLen seqNo = [codeOf s.baseLength frameLen] := by
    unfold nextWindow
    rw [hw]
    have := three_lt_windowSize s.state
    simp only [ite_self, List.length_nil, List.nil_append]
    rw [if_pos (by omega)]
  have h := Put_short s frameLen seqNo hi (by
    rw [hnw, List.length_singleton]
    have := three_lt_windowSize s.state
    omega)
  rw [h, hnw]

/-- C18: a decoder with `ignoreSeqCnt = n > 0` drops the observation: `Put` returns
the decoder with `ignoreSeqCnt = n - 1`, an empty window and `seqNo` set, every
other field as before.  Hence of the observations that follow a transition
setting `ignoreSeqCnt = n` the first `n` are dropped, and the next one is the
first whose code enters the window. -/
theorem ignored_observations (s : AirKiss) (frameLen : Int) (seqNo : Nat)
    (h : s.ignoreSeqCnt > 0) :
    Put s frameLen seqNo
      = some { s with seqNo := seqNo, window := [], ignoreSeqCnt := s.ignoreSeqCnt - 1 }
    ∧ (∀ obs : List (Int × Nat), obs ≠ [] → obs.length ≤ s.ignoreSeqCnt →
        feed s obs = some { s with
          seqNo := lastSeqNo s.seqNo obs
          window := []
          ignoreSeqCnt := s.ignoreSeqCnt - obs.length })
    ∧ (∀ (obs : List (Int × Nat)) (f : Int) (m : Nat), obs.length = s.ignoreSeqCnt →
        feed s (obs ++ [(f, m)]) = some { s with
          seqNo := m
          window := [codeOf s.baseLength f]
          ignoreSeqCnt := 0 }) := by
  refine ⟨Put_ignored s frameLen seqNo h, fun obs hne hlen => feed_ignored obs s hne hlen, ?_⟩
  intro obs f m hlen
  have hne : obs ≠ [] := by
    intro h0
    rw [h0] at hlen
    simp at hlen
    omega
  have hfeed : ∀ (l1 l2 : List (Int × Nat)) (a b : AirKiss), feed a l1 = some b →
      feed a (l1 ++ l2) = feed b l2 := by
    intro l1
    induction l1 with
    | nil => intro l2 a b hab; simp only [feed, Option.some.injEq] at hab; subst hab; rfl
    | cons o r ih =>
      intro l2 a b hab
      simp only [List.cons_append, feed] at hab ⊢
      cases hp : Put a o.1 o.2 with
      | none => simp [hp] at hab
      | some c => rw [hp] at hab; simp only at hab ⊢; exact ih l2 c b hab
  rw [hfeed obs [(f, m)] s _ (feed_ignored obs s hne (by omega))]
  simp only [feed]
  rw [Put_first_code _ f m (by simp only; omega) rfl]
  simp [feed, hlen]

set_option maxRecDepth 100000 in
/-- C18, an instance: the decoder right after the guide code drops a frame. -/
theorem ignored_observations_witness :
    afterGuideDecoder.ignoreSeqCnt > 0
    ∧ Put afterGuideDecoder 123 5 = some { afterGuideDecoder with
        seqNo := 5
        window := []
        ignoreSeqCnt := afterGuideDecoder.ignoreSeqCnt - 1 } :=
  ⟨by decide, (ignored_observations afterGuideDecoder 123 5 (by decide)).1⟩

/-! ## The sequence-continuity rule -/

theorem codeOf_of_neg (baseLength frameLen : Int) (h : baseLength < 0) :
    codeOf baseLength frameLen = frameLen := by
  unfold codeOf
  rw [if_neg (by omega)]

theorem wrapInt_of_range (x : Int) (h1 : -(2 ^ 63) ≤ x) (h2 : x < 2 ^ 63) : wrapInt x = x := by
  unfold wrapInt
  norm_num at h1 h2 ⊢
  omega

/-- C17: the sequence-continuity rule.  Let the decoder ignore nothing and let
its window `w` be too short for this `Put` to reach the parser
(`len(w) + 1 < windowSize`).  Then `Put(frameLen, seqNo)` returns the decoder with
`seqNo` set and the window `[code]` when `prev != 0` and `seqNo != prev + 1`
modulo `2^16` (`prev` the sequence number stored before), and `w ++ [code]`
otherwise; `code` is `frameLen` when `baseLength < 0` and `frameLen - baseLength`
(in 64-bit arithmetic) when `baseLength ≥ 0`.  In particular `prev = 0` never
resets the window, and `0` after `65535` is a continuation. -/
theorem sequence_continuity (s : AirKiss) (frameLen : Int) (seqNo : Nat)
    (hi : s.ignoreSeqCnt = 0) (hshort : s.window.length + 1 < windowSize s.state) :
    Put s frameLen seqNo = some { s with
        seqNo := seqNo
        window :=
          if s.seqNo ≠ 0 ∧ (s.seqNo + 1) % 65536 ≠ seqNo then [codeOf s.baseLength frameLen]
          else s.window ++ [codeOf s.baseLength frameLen] }
    ∧ (s.baseLength < 0 → codeOf s.baseLength frameLen = frameLen)
    ∧ (0 ≤ s.baseLength → codeOf s.baseLength frameLen = wrapInt (frameLen - s.baseLength))
    ∧ (0 ≤ s.baseLength → -(2 ^ 63) ≤ frameLen - s.baseLength →
        frameLen - s.baseLength < 2 ^ 63 →
        codeOf s.baseLength frameLen = frameLen - s.baseLength)
    ∧ (s.seqNo = 0 → Put s frameLen seqNo = some { s with
        seqNo := seqNo
        window := s.window ++ [codeOf s.baseLength frameLen] })
    ∧ (s.seqNo = 65535 → seqNo = 0 → Put s frameLen seqNo = some { s with
        seqNo := seqNo
        window := s.window ++ [codeOf s.baseLength frameLen] }) := by
  have hnw : nextWindow s frameLen seqNo =
      if s.seqNo ≠ 0 ∧ (s.seqNo + 1) % 65536 ≠ seqNo then [codeOf s.baseLength frameLen]
      else s.window ++ [codeOf s.baseLength frameLen] := by
    unfold nextWindow seqBreak
    by_cases hc : s.seqNo ≠ 0 ∧ (s.seqNo + 1) % 65536 ≠ seqNo
    · rw [if_pos hc]
      have hb : (s.seqNo != 0 && (s.seqNo + 1) % 65536 != seqNo) = true := by
        simp only [Bool.and_eq_true, bne_iff_ne, ne_eq]
        exact hc
      simp only [hb, ↓reduceIte, List.length_nil, List.nil_append]
      rw [if_pos (by omega)]
    · rw [if_neg hc]
      have hb : (s.seqNo != 0 && (s.seqNo + 1) % 65536 != seqNo) = false := by
        simp only [Bool.and_eq_false_imp, bne_iff_ne, ne_eq, bne_eq_false_iff_eq]
        intro h1
        by_contra h2
        exact hc ⟨h1, h2⟩
      simp only [hb, Bool.false_eq_true, ↓reduceIte]
      rw [if_pos (by omega)]
  have hlen : (nextWindow s frameLen seqNo).length < windowSize s.state := by
    rw [hnw]
    split
    · simp only [List.length_singleton]; omega
    · simp only [List.length_append, List.length_singleton]; omega
  have hput := Put_short s frameLen seqNo hi hlen
  rw [hnw] at hput
  refine ⟨hput, codeOf_of_neg _ _, ?_, ?_, ?_, ?_⟩
  · intro h
    unfold codeOf
    rw [if_pos (by omega)]
  · intro h h1 h2
    unfold codeOf
    rw [if_pos (by omega), wrapInt_of_range _ h1 h2]
  · intro h0
    rw [hput, if_neg (by simp [h0])]
  · intro h1 h2
    rw [hput, if_neg (by simp [h1, h2])]

set_option maxRecDepth 100000 in
/-- C17, an instance: sequence number `0` after `65535` appends to the window. -/
theorem sequence_continuity_witness :
    Put { New with seqNo := 65535, window := [5] } 7 0
      = some { New with seqNo := 0, window := [5, 7] } :=
  (sequence_continuity { New with seqNo := 65535, window := [5] } 7 0 rfl (by decide)).2.2.2.2.2
    rfl rfl

/-! ## Forward-only progress -/

/-- With an offset `≥ 0`, `parseFrame` keeps the offset and keeps the state or
moves it one step forward. -/
theorem parseFrame_forward (ak a : AirKiss) (hb : 0 ≤ ak.baseLength)
    (h : parseFrame ak = some a) :
    a.baseLength = ak.baseLength ∧
      (a.state = ak.state ∨ stateRank a.state = stateRank ak.state + 1) := by
  unfold parseFrame at h
  split at h
  · rename_i hst
    split at h
    · simp at h
    · rename_i a1 l c ok hg
      rcases getLengthAndCRC8_cases _ _ _ _ _ _ hg with ⟨hok, ha⟩ | ⟨hok, ha⟩
      · subst hok ha
        simp only [Bool.not_false, ↓reduceIte, Option.some.injEq] at h
        subst h
        exact ⟨rfl, Or.inl rfl⟩
      · subst hok ha
        simp only [Bool.not_true, Bool.false_eq_true, ↓reduceIte, Option.some.injEq] at h
        subst h
        refine ⟨rfl, Or.inr ?_⟩
        simp only [setState, hst, stateRank]
  · rename_i hst
    split at h
    · simp at h
    · rename_i a1 l c ok hg
      rcases getLengthAndCRC8_cases _ _ _ _ _ _ hg with ⟨hok, ha⟩ | ⟨hok, ha⟩
      · subst hok ha
        simp only [Bool.not_false, Bool.true_or, ↓reduceIte, Option.some.injEq] at h
        subst h
        exact ⟨rfl, Or.inl rfl⟩
      · subst hok ha
        split at h <;> simp only [Option.some.injEq] at h <;> subst h
        · exact ⟨rfl, Or.inl rfl⟩
        · refine ⟨rfl, Or.inr ?_⟩
          simp only [setState, hst, stateRank]
  · rename_i hst
    split at h
    · simp at h
    · rename_i a1 ok hg
      rcases getSeqAndData_cases _ _ _ hg with ⟨hok, ha⟩ | ⟨hok, ha⟩ | ⟨l, tb, hl, ha⟩
      · subst hok ha
        simp only [Bool.not_false, ↓reduceIte, Option.some.injEq] at h
        subst h
        exact ⟨rfl, Or.inl rfl⟩
      · subst hok ha
        simp only [Bool.not_false, ↓reduceIte, Option.some.injEq] at h
        subst h
        exact ⟨rfl, Or.inl rfl⟩
      · subst ha
        simp only [] at h
        repeat' split at h
        all_goals first
          | (simp at h; done)
          | (simp only [Option.some.injEq] at h; subst h; exact ⟨rfl, Or.inl rfl⟩)
          | (simp only [Option.some.injEq] at h; subst h
             refine ⟨rfl, Or.inr ?_⟩
             simp only [setState, hst, stateRank])
  · rw [if_neg (by omega)] at h
    simp only [Option.some.injEq] at h
    subst h
    exact ⟨rfl, Or.inl rfl⟩

/-- C19: once the offset is `≥ 0`, a `Put` that returns keeps `baseLength` and
leaves the state where it is or moves it to the next one in the order
`CheckingGuideCode < CheckingMagicCode < CheckingPrefixCode < CheckingSeqData < Done`. -/
theorem forward_only_progress (s s1 : AirKiss) (frameLen : Int) (seqNo : Nat)
    (hb : 0 ≤ s.baseLength) (hput : Put s frameLen seqNo = some s1) :
    s1.baseLength = s.baseLength ∧
      (s1.state = s.state ∨ stateRank s1.state = stateRank s.state + 1) := by
  by_cases hi : s.ignoreSeqCnt > 0
  · rw [Put_ignored s frameLen seqNo hi, Option.some.injEq] at hput
    subst hput
    exact ⟨rfl, Or.inl rfl⟩
  · have hi0 : s.ignoreSeqCnt = 0 := by omega
    by_cases hlen : (nextWindow s frameLen seqNo).length < windowSize s.state
    · rw [Put_short s frameLen seqNo hi0 hlen, Option.some.injEq] at hput
      subst hput
      exact ⟨rfl, Or.inl rfl⟩
    · rw [Put_parse s frameLen seqNo hi0 hlen] at hput
      simp only [Option.map_eq_some'] at hput
      obtain ⟨a, ha, rfl⟩ := hput
      exact parseFrame_forward { s with seqNo := seqNo, window := nextWindow s frameLen seqNo } a
        hb ha

set_option maxRecDepth 100000 in
/-- C19, an instance: the fourth magic code moves `magicThreeDecoder` from
`CheckingMagicCode` to `CheckingPrefixCode` and keeps `baseLength = 99`. -/
theorem forward_only_progress_witness :
    0 ≤ magicThreeDecoder.baseLength
    ∧ Put magicThreeDecoder 149 18 = some afterMagicDecoder
    ∧ (afterMagicDecoder.baseLength = magicThreeDecoder.baseLength
      ∧ (afterMagicDecoder.state = magicThreeDecoder.state
        ∨ stateRank afterMagicDecoder.state = stateRank magicThreeDecoder.state + 1)) :=
  ⟨by decide, by decide,
    forward_only_progress magicThreeDecoder afterMagicDecoder 149 18 (by decide) (by decide)⟩

/-! ## The magic code and the prefix code -/

theorem tagsOk_four (base : Nat) (w0 w1 w2 w3 : Int) :
    tagsOk base 0 [w0, w1, w2, w3] = true ↔ tagsMatch base w0 w1 w2 w3 := by
  by_cases h0 : Int.land w0 0x01F0 = (((0 + base) <<< 4 : Nat) : Int) <;>
    by_cases h1 : Int.land w1 0x01F0 = (((1 + base) <<< 4 : Nat) : Int) <;>
    by_cases h2 : Int.land w2 0x01F0 = (((2 + base) <<< 4 : Nat) : Int) <;>
    by_cases h3 : Int.land w3 0x01F0 = (((3 + base) <<< 4 : Nat) : Int) <;>
    simp [tagsOk, tagsMatch, h0, h1, h2, h3]

set_option maxRecDepth 100000 in
theorem shl_or_nibbles : ∀ x < 16, ∀ y < 16, (x <<< 4) ||| y = x * 16 + y := by
  decide

theorem nibblePair_eq (hi lo : Int) :
    ((nibblePair hi lo : Nat) : Int) = Int.land hi 0x000F * 16 + Int.land lo 0x000F ∧
      nibblePair hi lo < 256 := by
  have a := land_nibble hi
  have b := land_nibble lo
  unfold nibblePair
  have hx : (Int.land hi 0x000F).toNat < 16 := by omega
  have hy : (Int.land lo 0x000F).toNat < 16 := by omega
  rw [shl_or_nibbles _ hx _ hy]
  constructor
  · push_cast
    omega
  · omega

theorem parseFrame_magic (ak : AirKiss) (hst : ak.state = State.CheckingMagicCode) :
    parseFrame ak =
      match getLengthAndCRC8 ak 0 with
      | none => none
      | some (ak1, totalLength, ssidCrc8, done) =>
        if !done then some ak1
        else
          some (setState { ak1 with totalLength := totalLength, SSIDCRC8 := ssidCrc8 }
            State.CheckingPrefixCode 20) := by
  unfold parseFrame
  rw [hst]

theorem getLengthAndCRC8_four (ak : AirKiss) (base : Nat) (w0 w1 w2 w3 : Int)
    (hw : ak.window = [w0, w1, w2, w3]) :
    getLengthAndCRC8 ak base =
      if tagsOk base 0 [w0, w1, w2, w3] then
        some ({ ak with window := [] }, (nibblePair w0 w1 : Int), (nibblePair w2 w3 : Int), true)
      else some (ak, 0, 0, false) := by
  unfold getLengthAndCRC8
  rw [hw]
  simp only [(nibblePair_eq w0 w1).1, (nibblePair_eq w2 w3).1]

/-- C12: the magic-code parse.  Let a decoder in state `CheckingMagicCode` that
ignores nothing receive an observation that completes the window
`w = [w0, w1, w2, w3]`.  The `Put` returns, and the decoder is in state
`CheckingPrefixCode` afterwards if and only if `w[i] & 0x01F0 = i << 4` for
`i = 0 .. 3`.  In that case `totalLength = ((w0 & 0x0F) << 4) | (w1 & 0x0F)` and
`SSIDCRC8 = ((w2 & 0x0F) << 4) | (w3 & 0x0F)`, both below `256`, the window is
empty and `ignoreSeqCnt = 20`; otherwise the decoder is returned with the
shifted window, nothing else changed but `seqNo`. -/
theorem magic_code_parse (s : AirKiss) (frameLen : Int) (seqNo : Nat) (w0 w1 w2 w3 : Int)
    (hst : s.state = State.CheckingMagicCode) (hi : s.ignoreSeqCnt = 0)
    (hw : nextWindow s frameLen seqNo = [w0, w1, w2, w3]) :
    (∃ s1, Put s frameLen seqNo = some s1 ∧
      (s1.state = State.CheckingPrefixCode ↔ tagsMatch 0 w0 w1 w2 w3))
    ∧ (tagsMatch 0 w0 w1 w2 w3 →
        Put s frameLen seqNo = some { s with
          seqNo := seqNo
          totalLength := (nibblePair w0 w1 : Int)
          SSIDCRC8 := (nibblePair w2 w3 : Int)
          ignoreSeqCnt := 20
          state := State.CheckingPrefixCode
          window := [] })
    ∧ nibblePair w0 w1 < 256 ∧ nibblePair w2 w3 < 256
    ∧ (¬ tagsMatch 0 w0 w1 w2 w3 →
        Put s frameLen seqNo = some { s with
          seqNo := seqNo
          window := shiftWindow [w0, w1, w2, w3] }) := by
  have hput := Put_parse s frameLen seqNo hi (by rw [hw, hst]; simp [windowSize, windowSizeDefault])
  rw [hw, parseFrame_magic { s with seqNo := seqNo, window := [w0, w1, w2, w3] } hst,
    getLengthAndCRC8_four _ 0 w0 w1 w2 w3 rfl] at hput
  by_cases ht : tagsMatch 0 w0 w1 w2 w3
  · have ht2 := (tagsOk_four 0 w0 w1 w2 w3).mpr ht
    rw [if_pos ht2] at hput
    simp only [Bool.not_true, Bool.false_eq_true, ↓reduceIte, setState, Option.map_some',
      shiftWindow] at hput
    exact ⟨⟨_, hput, by simp [ht]⟩, fun _ => hput, (nibblePair_eq w0 w1).2,
      (nibblePair_eq w2 w3).2, fun h => absurd ht h⟩
  · have ht2 : ¬ tagsOk 0 0 [w0, w1, w2, w3] = true := fun h => ht ((tagsOk_four 0 _ _ _ _).mp h)
    rw [if_neg ht2] at hput
    simp only [Bool.not_false, ↓reduceIte, Option.map_some'] at hput
    exact ⟨⟨_, hput, by simp [ht, hst]⟩, fun h => absurd h ht, (nibblePair_eq w0 w1).2,
      (nibblePair_eq w2 w3).2, fun _ => hput⟩

theorem toByte_cast (n : Nat) (h : n < 256) : toByte (n : Int) = n := by
  unfold toByte
  omega

set_option maxRecDepth 100000 in
theorem crc8_single_eq_zero : ∀ e < 256, crc8 [e] = 0 → e = 0 := by
  decide

theorem crc8_single_inj (p q : Nat) (hp : p < 256) (hq : q < 256) (h : crc8 [p] = crc8 [q]) :
    p = q := by
  have hx := crc8_xor [p] [q] rfl
  simp only [List.zipWith_cons_cons, List.zipWith_nil_right, h, Nat.xor_self] at hx
  have hlt : p ^^^ q < 256 := @Nat.xor_lt_two_pow _ _ 8 hp hq
  exact Nat.xor_eq_zero.mp (crc8_single_eq_zero _ hlt hx)

theorem parseFrame_prefixCode (ak : AirKiss) (hst : ak.state = State.CheckingPrefixCode) :
    parseFrame ak =
      match getLengthAndCRC8 ak 4 with
      | none => none
      | some (ak1, pwdLength, pwdLengthCrc8, done) =>
        if !done || crc8 [toByte pwdLength] != toByte pwdLengthCrc8 then some ak1
        else
          some (setState { ak1 with
              pwdLength := pwdLength
              seqDataCnt := ceilDiv4 ak1.totalLength
              seqData := some [] }
            State.CheckingSeqData 20) := by
  unfold parseFrame
  rw [hst]

/-- C13: the CRC gate of the prefix code.  Let a decoder in state
`CheckingPrefixCode` that ignores nothing receive an observation that completes
the window `[w0, w1, w2, w3]` with the position tags `4, 5, 6, 7`, carrying the
length byte `p = ((w0 & 0x0F) << 4) | (w1 & 0x0F)` and the check byte
`c = ((w2 & 0x0F) << 4) | (w3 & 0x0F)`.  The `Put` returns, and the decoder is in
state `CheckingSeqData` afterwards if and only if `c = crc8([p])`.  On success
`pwdLength = p`, `seqDataCnt` is the ceiling of `totalLength / 4`, `seqData` is
empty, `ignoreSeqCnt = 20` and the window is empty; otherwise the decoder is
returned with an empty window, nothing else changed but `seqNo`.  In
particular every check byte `c = crc8([q])` of a byte `q ≠ p` leaves the decoder
in `CheckingPrefixCode`. -/
theorem prefix_code_gate (s : AirKiss) (frameLen : Int) (seqNo : Nat) (w0 w1 w2 w3 : Int)
    (hst : s.state = State.CheckingPrefixCode) (hi : s.ignoreSeqCnt = 0)
    (hw : nextWindow s frameLen seqNo = [w0, w1, w2, w3])
    (htags : tagsMatch 4 w0 w1 w2 w3) :
    (∃ s1, Put s frameLen seqNo = some s1 ∧
      (s1.state = State.CheckingSeqData ↔ nibblePair w2 w3 = crc8 [nibblePair w0 w1]))
    ∧ (nibblePair w2 w3 = crc8 [nibblePair w0 w1] →
        Put s frameLen seqNo = some { s with
          seqNo := seqNo
          pwdLength := (nibblePair w0 w1 : Int)
          seqDataCnt := ceilDiv4 s.totalLength
          seqData := some []
          ignoreSeqCnt := 20
          state := State.CheckingSeqData
          window := [] })
    ∧ (s.totalLength ≤ 4 * ceilDiv4 s.totalLength ∧ 4 * ceilDiv4 s.totalLength < s.totalLength + 4)
    ∧ (nibblePair w2 w3 ≠ crc8 [nibblePair w0 w1] →
        Put s frameLen seqNo = some { s with seqNo := seqNo, window := [] })
    ∧ (∀ q : Nat, q < 256 → q ≠ nibblePair w0 w1 → nibblePair w2 w3 = crc8 [q] →
        Put s frameLen seqNo = some { s with seqNo := seqNo, window := [] }) := by
  have hput := Put_parse s frameLen seqNo hi (by rw [hw, hst]; simp [windowSize, windowSizeDefault])
  have ht2 := (tagsOk_four 4 w0 w1 w2 w3).mpr htags
  have hp := (nibblePair_eq w0 w1).2
  have hc := (nibblePair_eq w2 w3).2
  rw [hw, parseFrame_prefixCode { s with seqNo := seqNo, window := [w0, w1, w2, w3] } hst,
    getLengthAndCRC8_four _ 4 w0 w1 w2 w3 rfl, if_pos ht2] at hput
  simp only [Bool.not_true, Bool.false_or, toByte_cast _ hp, toByte_cast _ hc] at hput
  have hceil : s.totalLength ≤ 4 * ceilDiv4 s.totalLength ∧
      4 * ceilDiv4 s.totalLength < s.totalLength + 4 := by
    unfold ceilDiv4
    omega
  have hfail : nibblePair w2 w3 ≠ crc8 [nibblePair w0 w1] →
      Put s frameLen seqNo = some { s with seqNo := seqNo, window := [] } := by
    intro hne
    rw [if_pos (by simpa using fun h => hne h.symm)] at hput
    simpa [shiftWindow] using hput
  by_cases hcrc : nibblePair w2 w3 = crc8 [nibblePair w0 w1]
  · rw [if_neg (by simp [hcrc])] at hput
    simp only [setState, Option.map_some', shiftWindow] at hput
    exact ⟨⟨_, hput, by simp [hcrc]⟩, fun _ => hput, hceil, fun h => absurd hcrc h,
      fun q hq hne h => absurd (crc8_single_inj _ _ hq hp (h.symm.trans hcrc)) hne⟩
  · exact ⟨⟨_, hfail hcrc, by simp [hcrc, hst]⟩, fun h => absurd h hcrc, hceil, hfail,
      fun q _ _ h => hfail hcrc⟩

set_option maxRecDepth 100000 in
/-- C12, two instances on `magicThreeDecoder`: a fourth code with position tag
`2` (tags `0, 1, 2, 2`) leaves it in `CheckingMagicCode`, the fourth magic code
(tags `0, 1, 2, 3`) moves it to `CheckingPrefixCode` with `totalLength = 8` and
`SSIDCRC8 = 0x42`. -/
theorem magic_code_parse_witness :
    Put magicThreeDecoder 133 18 = some { magicThreeDecoder with
        seqNo := 18
        window := shiftWindow [0x00, 0x18, 0x24, 0x22] }
    ∧ Put magicThreeDecoder 149 18 = some { magicThreeDecoder with
        seqNo := 18
        totalLength := (nibblePair 0x00 0x18 : Int)
        SSIDCRC8 := (nibblePair 0x24 0x32 : Int)
        ignoreSeqCnt := 20
        state := State.CheckingPrefixCode
        window := [] }
    ∧ nibblePair 0x00 0x18 = 8 ∧ nibblePair 0x24 0x32 = 0x42 :=
  ⟨(magic_code_parse magicThreeDecoder 133 18 0x00 0x18 0x24 0x22 rfl rfl (by decide)).2.2.2.2
      (by unfold tagsMatch; decide),
    (magic_code_parse magicThreeDecoder 149 18 0x00 0x18 0x24 0x32 rfl rfl (by decide)).2.1
      (by unfold tagsMatch; decide),
    by decide, by decide⟩

set_option maxRecDepth 100000 in
/-- C13, an instance: `pwd_length = 4` with the check byte `crc8([5]) = 0x3F` leaves
`prefixThreeDecoder` in `CheckingPrefixCode`. -/
theorem prefix_code_gate_witness :
    nibblePair 0x40 0x54 = 4 ∧ nibblePair 0x63 0x7F = crc8 [5]
    ∧ Put prefixThreeDecoder 226 42
        = some { prefixThreeDecoder with seqNo := 42, window := [] } :=
  ⟨by decide, by decide,
    (prefix_code_gate prefixThreeDecoder 226 42 0x40 0x54 0x63 0x7F rfl rfl (by decide)
      (by unfold tagsMatch; decide)).2.2.2.2 5 (by decide) (by decide) (by decide)⟩

/-! ## The last chunk of a payload whose length is a multiple of four -/

set_option maxRecDepth 100000 in
/-- C16: a reachable decoder in state `CheckingSeqData` with `totalLength = 8` and
`seqDataCnt = 2` whose window holds the first five codes of a group of index 1,
the last chunk.  No data code of the group has bit 8 set and its `crc7 = 94` is
`crc8([1]) & 0x7F`, not the value `60` over the index and the four data bytes;
still the sixth code makes the decoder store the group, with the record
`[94, 1, 0, 0, 0, 0]`: no data byte is checked, covered by the CRC or copied. -/
theorem last_chunk_of_full_payload_unchecked :
    ∃ s : AirKiss, Reachable s ∧ s.state = State.CheckingSeqData ∧ s.totalLength = 8 ∧
      s.seqDataCnt = 2 ∧ s.window = [0x80 + 94, 0x80 + 1, 0x7A, 0x61, 0x62] ∧
      mapGet s.seqData 1 = none ∧
      (Put s (99 + 0x63) 68).map (fun a => (a.state, mapGet a.seqData 1))
        = some (State.CheckingSeqData, some [94, 1, 0, 0, 0, 0]) ∧
      Int.land 0x7A 0x0100 ≠ 0x0100 ∧ Int.land 0x61 0x0100 ≠ 0x0100 ∧
      Int.land 0x62 0x0100 ≠ 0x0100 ∧ Int.land 0x63 0x0100 ≠ 0x0100 ∧
      crc8 [1, 0x7A, 0x61, 0x62, 0x63] &&& 0x7F = 60 ∧ crc8 [1] &&& 0x7F = 94 := by
  have h : feed New (withSeq 1 (framesAt 99
      (headerPhase guideCodes 8 0x42 4 ++ [0x80 + 94, 0x80 + 1, 0x7A, 0x61, 0x62]))) = some
      { SSID := [], SSIDCRC8 := 66, Password := [], RandomByte := 0, baseLength := 99,
        totalLength := 8, pwdLength := 4, state := State.CheckingSeqData, doneClosed := false,
        seqNo := 67, ignoreSeqCnt := 0, window := [222, 129, 122, 97, 98], seqDataCnt := 2,
        seqData := some [] } := by decide
  exact ⟨_, reachable_feed _ _ _ Reachable.init (by decide) h, rfl, rfl, rfl, by decide,
    by decide, by decide, by decide, by decide, by decide, by decide, by decide, by decide⟩

/-! ## The guide code -/

theorem parseFrame_in_guide (ak : AirKiss) (hst : ak.state = State.CheckingGuideCode) :
    parseFrame ak =
      if ak.baseLength < 0 then
        match findOrderNumbers ak with
        | none => none
        | some (baseLength, ok) =>
          if !ok then some ak
          else some (setState { ak with baseLength := baseLength } State.CheckingMagicCode 10)
      else some ak := by
  unfold parseFrame
  rw [hst]

theorem isIncreasing_run (x : Int) (hlo : -(2 ^ 63) ≤ x) (hhi : x + 3 < 2 ^ 63) :
    isIncreasing [x, x + 1, x + 2, x + 3] = true := by
  have h1 : wrapInt (x + 1) = x + 1 := wrapInt_of_range _ (by omega) (by omega)
  have h2 : wrapInt (x + 1 + 1) = x + 2 := by
    rw [wrapInt_of_range _ (by omega) (by omega)]; omega
  have h3 : wrapInt (x + 2 + 1) = x + 3 := by
    rw [wrapInt_of_range _ (by omega) (by omega)]; omega
  simp [isIncreasing, h1, h2, h3]

/-- The `Put` that completes the window `[x, x+1, x+2, x+3]` in state
`CheckingGuideCode`: the offset becomes `x - 1` and the decoder moves to
`CheckingMagicCode`. -/
theorem Put_guide_run (s : AirKiss) (x : Int) (m : Nat)
    (hst : s.state = State.CheckingGuideCode) (hb : s.baseLength < 0)
    (hi : s.ignoreSeqCnt = 0) (hw : nextWindow s (x + 3) m = [x, x + 1, x + 2, x + 3])
    (hlo : -(2 ^ 63) ≤ x) (hhi : x + 3 < 2 ^ 63) :
    Put s (x + 3) m = some { s with
      seqNo := m
      baseLength := wrapInt (x - 1)
      ignoreSeqCnt := 10
      state := State.CheckingMagicCode
      window := [] } := by
  have hput := Put_parse s (x + 3) m hi
    (by rw [hw, hst]; simp [windowSize, windowSizeDefault])
  rw [hw, parseFrame_in_guide { s with seqNo := m, window := [x, x + 1, x + 2, x + 3] } hst,
    if_pos hb] at hput
  simp only [findOrderNumbers, isIncreasing_run x hlo hhi, ↓reduceIte, Bool.not_true,
    Bool.false_eq_true, setState, Option.map_some', shiftWindow] at hput
  exact hput

theorem nextWindow_guide (s : AirKiss) (frameLen : Int) (seqNo : Nat)
    (hg : guideWaiting s) :
    nextWindow s frameLen seqNo
      = (if seqBreak s.seqNo seqNo then [] else s.window).take 3 ++ [frameLen] := by
  obtain ⟨hst, hb, -, hlen⟩ := hg
  unfold nextWindow
  rw [codeOf_of_neg _ _ (by omega), hst]
  by_cases hbr : seqBreak s.seqNo seqNo = true
  · simp [hbr, windowSize, windowSizeDefault]
  · simp only [hbr, Bool.false_eq_true, ↓reduceIte]
    generalize s.window = w at hlen
    rcases w with _ | ⟨a, _ | ⟨b, _ | ⟨c, _ | ⟨d, _ | ⟨e, t⟩⟩⟩⟩⟩ <;>
      simp [windowSize, windowSizeDefault] at hlen ⊢

/-- A `Put` that leaves the decoder in state `CheckingGuideCode`: the first
three codes of the new window are the last three of the codes the parser was
(or would have been) given. -/
theorem Put_guide_step (s s1 : AirKiss) (frameLen : Int) (seqNo : Nat)
    (hg : guideWaiting s) (hput : Put s frameLen seqNo = some s1)
    (hst1 : s1.state = State.CheckingGuideCode) :
    guideWaiting s1 ∧ s1.seqNo = seqNo ∧
      s1.window.take 3
        = lastThree ((if seqBreak s.seqNo seqNo then [] else s.window).take 3 ++ [frameLen]) := by
  have hnw := nextWindow_guide s frameLen seqNo hg
  obtain ⟨hst, hb, hi, hlen⟩ := hg
  generalize (if seqBreak s.seqNo seqNo then [] else s.window).take 3 = u at hnw
  have hu : u.length ≤ 3 ∨ 3 < u.length := by omega
  by_cases hl : (nextWindow s frameLen seqNo).length < windowSize s.state
  · rw [Put_short s frameLen seqNo hi hl, Option.some.injEq] at hput
    subst hput
    rw [hnw, hst] at hl
    simp only [windowSize, windowSizeDefault, List.length_append, List.length_singleton] at hl
    refine ⟨⟨hst, hb, hi, ?_⟩, rfl, ?_⟩
    · show (nextWindow s frameLen seqNo).length ≤ 4
      rw [hnw]
      simp only [List.length_append, List.length_singleton]
      omega
    · show (nextWindow s frameLen seqNo).take 3 = _
      rw [hnw]
      rcases u with _ | ⟨a, _ | ⟨b, _ | ⟨c, t⟩⟩⟩ <;> simp [lastThree] at hl ⊢
      omega
  · rw [Put_parse s frameLen seqNo hi hl,
      parseFrame_in_guide { s with seqNo := seqNo, window := nextWindow s frameLen seqNo } hst,
      if_pos (show s.baseLength < 0 by omega)] at hput
    simp only [findOrderNumbers] at hput
    by_cases hinc : isIncreasing (nextWindow s frameLen seqNo) = true
    · exfalso
      rw [if_pos hinc] at hput
      cases hn : nextWindow s frameLen seqNo with
      | nil => rw [hn] at hput; simp at hput
      | cons a t =>
        rw [hn] at hput
        simp only [Bool.not_true, Bool.false_eq_true, ↓reduceIte, setState, Option.map_some',
          Option.some.injEq] at hput
        subst hput
        simp at hst1
    · rw [if_neg hinc] at hput
      simp only [Bool.not_false, ↓reduceIte, Option.map_some', Option.some.injEq] at hput
      subst hput
      refine ⟨⟨hst, hb, hi, ?_⟩, rfl, ?_⟩
      · show (shiftWindow (nextWindow s frameLen seqNo)).length ≤ 4
        rw [shiftWindow_length]
        have := nextWindow_length_le s frameLen seqNo
          (by rw [hst]; simpa [windowSize, windowSizeDefault] using hlen)
        rw [hst] at this
        simpa [windowSize, windowSizeDefault] using this
      · show (shiftWindow (nextWindow s frameLen seqNo)).take 3 = _
        rw [hnw, hst] at hl
        have hlen3 : (nextWindow s frameLen seqNo).length ≤ 4 := by
          have := nextWindow_length_le s frameLen seqNo
            (by rw [hst]; simpa [windowSize, windowSizeDefault] using hlen)
          rw [hst] at this
          simpa [windowSize, windowSizeDefault] using this
        rw [hnw] at hlen3 ⊢
        rcases u with _ | ⟨a, _ | ⟨b, _ | ⟨c, _ | ⟨d, t⟩⟩⟩⟩ <;>
          simp [lastThree, shiftWindow, windowSize, windowSizeDefault] at hl hlen3 ⊢

theorem lastThree_chain (u : List Int) (a b c : Int) (h : u.length ≤ 3) :
    lastThree (lastThree (lastThree (u ++ [a]) ++ [b]) ++ [c]) = [a, b, c] := by
  rcases u with _ | ⟨p, _ | ⟨q, _ | ⟨r, _ | ⟨d, t⟩⟩⟩⟩ <;> simp [lastThree] at h ⊢

theorem feed_append (a b : List (Int × Nat)) :
    ∀ s : AirKiss, feed s (a ++ b) = (feed s a).bind (fun t => feed t b) := by
  induction a with
  | nil => intro s; rfl
  | cons o rest ih =>
    intro s
    obtain ⟨f, m⟩ := o
    simp only [List.cons_append, feed]
    cases Put s f m with
    | none => rfl
    | some t => exact ih t

theorem feed_guide_state (obs : List (Int × Nat)) :
    ∀ s s1 : AirKiss, feed s obs = some s1 → s1.state = State.CheckingGuideCode →
      s.state = State.CheckingGuideCode := by
  induction obs with
  | nil =>
    intro s s1 h hst
    simp only [feed, Option.some.injEq] at h
    rw [h]; exact hst
  | cons o rest ih =>
    intro s s1 h hst
    obtain ⟨f, m⟩ := o
    simp only [feed] at h
    cases hp : Put s f m with
    | none => rw [hp] at h; simp at h
    | some t =>
      rw [hp] at h
      exact (Put_guide s t f m hp (ih t s1 h hst)).1

theorem feed_guideWaiting (obs : List (Int × Nat)) :
    ∀ s s1 : AirKiss, guideWaiting s → feed s obs = some s1 →
      s1.state = State.CheckingGuideCode → guideWaiting s1 := by
  induction obs with
  | nil =>
    intro s s1 hg h _
    simp only [feed, Option.some.injEq] at h
    rw [← h]; exact hg
  | cons o rest ih =>
    intro s s1 hg h hst
    obtain ⟨f, m⟩ := o
    simp only [feed] at h
    cases hp : Put s f m with
    | none => rw [hp] at h; simp at h
    | some t =>
      rw [hp] at h
      exact ih t s1 (Put_guide_step s t f m hg hp (feed_guide_state rest t s1 h hst)).1 h hst

theorem guideWaiting_New : guideWaiting New := ⟨rfl, rfl, rfl, by decide⟩

set_option maxRecDepth 100000 in
/-- C15: sliding window and gap tolerance in `CheckingGuideCode`.  Put any list
`pre` of observations into `New()`, then the frame lengths `x, x+1, x+2` with
consecutive sequence numbers `n, n+1, n+2` (modulo `2^16`).  If these `Put`s
return a decoder `s3` that is still in `CheckingGuideCode`, then the window the
parser gets at the next observation `(x+3, n+3)` is exactly `[x, x+1, x+2, x+3]`
and that `Put` returns the decoder in `CheckingMagicCode` with
`baseLength = x - 1` (in the 64-bit arithmetic of Go, the exact difference for
`x > -2^63`), `ignoreSeqCnt = 10` and an empty window. -/
theorem guide_sliding_window (pre : List (Int × Nat)) (x : Int) (n : Nat) (s3 : AirKiss)
    (hlo : -(2 ^ 63) ≤ x) (hhi : x + 3 < 2 ^ 63)
    (hfeed : feed New (pre ++ withSeq n [x, x + 1, x + 2]) = some s3)
    (hst : s3.state = State.CheckingGuideCode) :
    nextWindow s3 (x + 3) ((n + 3) % 65536) = [x, x + 1, x + 2, x + 3]
    ∧ Put s3 (x + 3) ((n + 3) % 65536) = some { s3 with
        seqNo := (n + 3) % 65536
        baseLength := wrapInt (x - 1)
        ignoreSeqCnt := 10
        state := State.CheckingMagicCode
        window := [] }
    ∧ (-(2 ^ 63) < x → wrapInt (x - 1) = x - 1) := by
  rw [feed_append] at hfeed
  cases h0 : feed New pre with
  | none => rw [h0] at hfeed; simp at hfeed
  | some s0 =>
    rw [h0] at hfeed
    simp only [Option.some_bind, withSeq, feed] at hfeed
    cases h1 : Put s0 x (n % 65536) with
    | none => rw [h1] at hfeed; simp at hfeed
    | some s1 =>
      rw [h1] at hfeed
      simp only at hfeed
      cases h2 : Put s1 (x + 1) ((n + 1) % 65536) with
      | none => rw [h2] at hfeed; simp at hfeed
      | some s2 =>
        rw [h2] at hfeed
        simp only at hfeed
        have hfeed : Put s2 (x + 2) ((n + 1 + 1) % 65536) = some s3 := by
          cases h3 : Put s2 (x + 2) ((n + 1 + 1) % 65536) with
          | none => rw [h3] at hfeed; simp at hfeed
          | some t => rw [h3] at hfeed; simpa using hfeed
        have hst2 : s2.state = State.CheckingGuideCode :=
          (Put_guide s2 s3 _ _ hfeed hst).1
        have hst1 : s1.state = State.CheckingGuideCode :=
          (Put_guide s1 s2 _ _ h2 hst2).1
        have hst0 : s0.state = State.CheckingGuideCode :=
          (Put_guide s0 s1 _ _ h1 hst1).1
        have hg0 := feed_guideWaiting pre New s0 guideWaiting_New h0 hst0
        obtain ⟨hg1, hm1, hw1⟩ := Put_guide_step s0 s1 _ _ hg0 h1 hst1
        obtain ⟨hg2, hm2, hw2⟩ := Put_guide_step s1 s2 _ _ hg1 h2 hst2
        obtain ⟨hg3, hm3, hw3⟩ := Put_guide_step s2 s3 _ _ hg2 hfeed hst
        have hb1 : seqBreak s1.seqNo ((n + 1) % 65536) = false := by
          rw [hm1]; exact seqBreak_succ n
        have hb2 : seqBreak s2.seqNo ((n + 1 + 1) % 65536) = false := by
          rw [hm2]; exact seqBreak_succ (n + 1)
        have hb3 : seqBreak s3.seqNo ((n + 3) % 65536) = false := by
          rw [hm3]; exact seqBreak_succ (n + 2)
        simp only [hb1, Bool.false_eq_true, ↓reduceIte] at hw2
        simp only [hb2, Bool.false_eq_true, ↓reduceIte] at hw3
        rw [hw2, hw1, lastThree_chain _ _ _ _ (by
          rw [List.length_take]; omega)] at hw3
        have hnw : nextWindow s3 (x + 3) ((n + 3) % 65536) = [x, x + 1, x + 2, x + 3] := by
          rw [nextWindow_guide s3 _ _ hg3]
          simp only [hb3, Bool.false_eq_true, ↓reduceIte]
          rw [hw3]
          rfl
        refine ⟨hnw, ?_, fun hx => wrapInt_of_range _ (by omega) (by omega)⟩
        exact Put_guide_run s3 x _ hg3.1 (by rw [hg3.2.1]; decide) hg3.2.2.1 hnw hlo hhi

set_option maxRecDepth 100000 in
theorem guide_sliding_window_witness :
    feed New ([(50, 7), (51, 8), (60, 20)] ++ withSeq 30 [100, 100 + 1, 100 + 2])
      = some guideThreeDecoder
    ∧ guideThreeDecoder.state = State.CheckingGuideCode
    ∧ (nextWindow guideThreeDecoder (100 + 3) ((30 + 3) % 65536)
        = [100, 100 + 1, 100 + 2, 100 + 3]
      ∧ Put guideThreeDecoder (100 + 3) ((30 + 3) % 65536) = some { guideThreeDecoder with
          seqNo := (30 + 3) % 65536
          baseLength := wrapInt (100 - 1)
          ignoreSeqCnt := 10
          state := State.CheckingMagicCode
          window := [] }
      ∧ (-(2 ^ 63) < (100 : Int) → wrapInt (100 - 1) = 100 - 1)) :=
  ⟨by decide, by decide,
    guide_sliding_window [(50, 7), (51, 8), (60, 20)] 100 30 guideThreeDecoder
      (by decide) (by decide) (by decide) (by decide)⟩

/-- The observations that leave the window too short for the parser keep the
state and the offset. -/
theorem feed_guide_short (obs : List (Int × Nat)) :
    ∀ s : AirKiss, guideWaiting s → s.window.length + obs.length ≤ 3 →
      ∃ s1, feed s obs = some s1 ∧ guideWaiting s1 := by
  induction obs with
  | nil => intro s hg _; exact ⟨s, rfl, hg⟩
  | cons o rest ih =>
    intro s hg hlen
    obtain ⟨f, m⟩ := o
    have hnw := nextWindow_guide s f m hg
    have hl : (nextWindow s f m).length ≤ s.window.length + 1 := by
      rw [hnw]
      by_cases hb : seqBreak s.seqNo m = true
      · simp [hb]
      · simp only [hb, Bool.false_eq_true, ↓reduceIte, List.length_append, List.length_take,
          List.length_singleton]
        omega
    simp only [List.length_cons] at hlen
    have hput := Put_short s f m hg.2.2.1 (by
      rw [hg.1]
      simp only [windowSize, windowSizeDefault]
      omega)
    simp only [feed, hput]
    exact ih _ ⟨hg.1, hg.2.1, hg.2.2.1, by show (nextWindow s f m).length ≤ 4; omega⟩
      (by show (nextWindow s f m).length + rest.length ≤ 3; omega)

theorem Put_guide_append (t : AirKiss) (frameLen : Int) (seqNo : Nat) (hg : guideWaiting t)
    (hb : seqBreak t.seqNo seqNo = false) (hl : t.window.length < 3) :
    Put t frameLen seqNo = some { t with seqNo := seqNo, window := t.window ++ [frameLen] } := by
  have hnw : nextWindow t frameLen seqNo = t.window ++ [frameLen] := by
    rw [nextWindow_guide t frameLen seqNo hg]
    simp only [hb, Bool.false_eq_true, ↓reduceIte]
    rw [List.take_of_length_le (by omega)]
  have hput := Put_short t frameLen seqNo hg.2.2.1 (by
    rw [hnw, hg.1]
    simp only [windowSize, windowSizeDefault, List.length_append, List.length_singleton]
    omega)
  rw [hput, hnw]

/-- C11: base-length learning.  For frame lengths `x, x+1, x+2, x+3` that are Go
`int`s and any first sequence number `s`, the four observations with sequence
numbers `s, s+1, s+2, s+3` (modulo `2^16`) put into `New()` return the decoder
in state `CheckingMagicCode` with `baseLength = x - 1` (computed in the 64-bit
arithmetic of Go, the exact difference for `x > -2^63`), `ignoreSeqCnt = 10` and
an empty window; the first `k ≤ 3` of them return a decoder in state
`CheckingGuideCode` with `baseLength = -1`. -/
theorem base_length_learning (x : Int) (s : Nat)
    (hlo : -(2 ^ 63) ≤ x) (hhi : x + 3 < 2 ^ 63) :
    feed New (withSeq s [x, x + 1, x + 2, x + 3]) = some { New with
        seqNo := (s + 3) % 65536
        baseLength := wrapInt (x - 1)
        ignoreSeqCnt := 10
        state := State.CheckingMagicCode
        window := [] }
    ∧ (-(2 ^ 63) < x → wrapInt (x - 1) = x - 1)
    ∧ ∀ k : Nat, k ≤ 3 → ∃ s1, feed New ((withSeq s [x, x + 1, x + 2, x + 3]).take k) = some s1
        ∧ s1.state = State.CheckingGuideCode ∧ s1.baseLength = -1 := by
  refine ⟨?_, fun hx => wrapInt_of_range _ (by omega) (by omega), ?_⟩
  · have h3 : (withSeq s [x, x + 1, x + 2, x + 3])
        = withSeq s [x, x + 1, x + 2] ++ [(x + 3, (s + 3) % 65536)] := by
      simp [withSeq]
    have h1 := Put_guide_append New x (s % 65536) guideWaiting_New (by simp [seqBreak, New])
      (by simp [New])
    have h2 := Put_guide_append { New with seqNo := s % 65536, window := [x] } (x + 1)
      ((s + 1) % 65536) ⟨rfl, rfl, rfl, by simp⟩ (seqBreak_succ s) (by simp)
    have h3 := Put_guide_append { New with seqNo := (s + 1) % 65536, window := [x, x + 1] }
      (x + 2) ((s + 1 + 1) % 65536) ⟨rfl, rfl, rfl, by simp⟩ (seqBreak_succ (s + 1))
      (by simp)
    have hg3 : guideWaiting { New with seqNo := (s + 1 + 1) % 65536, window := [x, x + 1, x + 2] } :=
      ⟨rfl, rfl, rfl, by simp⟩
    have h4 := Put_guide_run
      { New with seqNo := (s + 1 + 1) % 65536, window := [x, x + 1, x + 2] } x
      ((s + 1 + 1 + 1) % 65536) rfl (by simp [New]) rfl (by
        rw [nextWindow_guide _ _ _ hg3]
        simp only [seqBreak_succ (s + 1 + 1), Bool.false_eq_true, ↓reduceIte]
        rfl) hlo hhi
    simp only [withSeq, feed]
    rw [h1]
    simp only [New, List.nil_append] at h2 h3 h4 ⊢
    rw [h2]
    simp only [List.cons_append, List.nil_append]
    rw [h3]
    simp only [List.cons_append, List.nil_append]
    rw [h4]
  · intro k hk
    obtain ⟨s1, hf, hg⟩ := feed_guide_short ((withSeq s [x, x + 1, x + 2, x + 3]).take k) New
      guideWaiting_New (by
        simp only [List.length_take, withSeq, List.length_cons, List.length_nil, New]
        omega)
    exact ⟨s1, hf, hg.1, hg.2.1⟩

theorem base_length_learning_witness :
    -(2 ^ 63) ≤ (100 : Int) ∧ (100 : Int) + 3 < 2 ^ 63 ∧ wrapInt (100 - 1) = 99
    ∧ (feed New (withSeq 1 [100, 100 + 1, 100 + 2, 100 + 3]) = some { New with
          seqNo := (1 + 3) % 65536
          baseLength := wrapInt (100 - 1)
          ignoreSeqCnt := 10
          state := State.CheckingMagicCode
          window := [] }
      ∧ (-(2 ^ 63) < (100 : Int) → wrapInt (100 - 1) = 100 - 1)
      ∧ ∀ k : Nat, k ≤ 3 →
          ∃ s1, feed New ((withSeq 1 [100, 100 + 1, 100 + 2, 100 + 3]).take k) = some s1
            ∧ s1.state = State.CheckingGuideCode ∧ s1.baseLength = -1) :=
  ⟨by decide, by decide, by decide, base_length_learning 100 1 (by decide) (by decide)⟩

/-! ## The sign of the offset and the state -/

theorem shiftWindow_mem (c : Int) : ∀ w : List Int, c ∈ shiftWindow w → c ∈ w
  | [], h => h
  | [_], h => h
  | a :: b :: rest, h => by
    simp only [shiftWindow, List.mem_cons] at h
    rcases h with h | h
    · simp [h]
    · exact List.mem_cons_of_mem a (shiftWindow_mem c (b :: rest) h)

theorem nextWindow_mem (s : AirKiss) (frameLen : Int) (seqNo : Nat) (c : Int)
    (h : c ∈ nextWindow s frameLen seqNo) :
    c ∈ s.window ∨ c = codeOf s.baseLength frameLen := by
  unfold nextWindow at h
  by_cases hb : seqBreak s.seqNo seqNo = true
  · simp only [hb, ↓reduceIte] at h
    split at h
    · simp at h; exact Or.inr h
    · simp at h
  · simp only [hb, Bool.false_eq_true, ↓reduceIte] at h
    split at h
    · simp only [List.mem_append, List.mem_singleton] at h
      exact h
    · rcases List.mem_or_eq_of_mem_set h with h | h
      · exact Or.inl h
      · exact Or.inr h

/-- With an offset `≥ 0` a `Put` that returns keeps the offset. -/
theorem Put_keeps_offset (s s1 : AirKiss) (frameLen : Int) (seqNo : Nat)
    (hb : 0 ≤ s.baseLength) (hput : Put s frameLen seqNo = some s1) :
    s1.baseLength = s.baseLength := by
  by_cases hi : s.ignoreSeqCnt > 0
  · rw [Put_ignored s frameLen seqNo hi, Option.some.injEq] at hput
    subst hput
    rfl
  · have hi0 : s.ignoreSeqCnt = 0 := by omega
    by_cases hlen : (nextWindow s frameLen seqNo).length < windowSize s.state
    · rw [Put_short s frameLen seqNo hi0 hlen, Option.some.injEq] at hput
      subst hput
      rfl
    · rw [Put_parse s frameLen seqNo hi0 hlen] at hput
      simp only [Option.map_eq_some'] at hput
      obtain ⟨a, ha, rfl⟩ := hput
      exact (parseFrame_forward { s with seqNo := seqNo, window := nextWindow s frameLen seqNo }
        a hb ha).1

/-- A `Put` of a frame length in `[1, 2^63)` keeps the link between offset and
state. -/
theorem Put_offsetLinked (s s1 : AirKiss) (frameLen : Int) (seqNo : Nat)
    (hinv : offsetLinked s) (h1 : 1 ≤ frameLen) (h2 : frameLen < 2 ^ 63)
    (hput : Put s frameLen seqNo = some s1) : offsetLinked s1 := by
  by_cases hst : s.state = State.CheckingGuideCode
  · obtain ⟨hbase, hwin⟩ := hinv.1 hst
    have hnw : ∀ c ∈ nextWindow s frameLen seqNo, 1 ≤ c ∧ c < 2 ^ 63 := by
      intro c hc
      rcases nextWindow_mem s frameLen seqNo c hc with h | h
      · exact hwin c h
      · rw [h, codeOf_of_neg _ _ (by omega)]
        exact ⟨h1, h2⟩
    by_cases hi : s.ignoreSeqCnt > 0
    · rw [Put_ignored s frameLen seqNo hi, Option.some.injEq] at hput
      subst hput
      exact ⟨fun _ => ⟨hbase, by simp⟩, fun h => absurd hst h⟩
    · have hi0 : s.ignoreSeqCnt = 0 := by omega
      by_cases hlen : (nextWindow s frameLen seqNo).length < windowSize s.state
      · rw [Put_short s frameLen seqNo hi0 hlen, Option.some.injEq] at hput
        subst hput
        exact ⟨fun _ => ⟨hbase, hnw⟩, fun h => absurd hst h⟩
      · rw [Put_parse s frameLen seqNo hi0 hlen,
          parseFrame_in_guide { s with seqNo := seqNo, window := nextWindow s frameLen seqNo }
            hst,
          if_pos (show s.baseLength < 0 by omega)] at hput
        simp only [findOrderNumbers] at hput
        by_cases hinc : isIncreasing (nextWindow s frameLen seqNo) = true
        · rw [if_pos hinc] at hput
          cases hn : nextWindow s frameLen seqNo with
          | nil => rw [hn] at hput; simp at hput
          | cons a t =>
            rw [hn] at hput
            simp only [Bool.not_true, Bool.false_eq_true, ↓reduceIte, setState,
              Option.map_some', Option.some.injEq] at hput
            subst hput
            have ha := hnw a (by rw [hn]; simp)
            refine ⟨fun h => by simp at h, fun _ => ?_⟩
            show 0 ≤ wrapInt (a - 1)
            rw [wrapInt_of_range _ (by omega) (by omega)]
            omega
        · rw [if_neg hinc] at hput
          simp only [Bool.not_false, ↓reduceIte, Option.map_some', Option.some.injEq] at hput
          subst hput
          exact ⟨fun _ => ⟨hbase, fun c hc => hnw c (shiftWindow_mem c _ hc)⟩,
            fun h => absurd hst h⟩
  · have hb := hinv.2 hst
    have hst1 : s1.state ≠ State.CheckingGuideCode :=
      fun h => hst (Put_guide s s1 frameLen seqNo hput h).1
    have hkeep := Put_keeps_offset s s1 frameLen seqNo hb hput
    exact ⟨fun h => absurd h hst1, fun _ => by rw [hkeep]; exact hb⟩

theorem feed_offsetLinked (obs : List (Int × Nat)) :
    ∀ s s1 : AirKiss, offsetLinked s → wellTyped obs = true → positiveLengths obs = true →
      feed s obs = some s1 → offsetLinked s1 := by
  induction obs with
  | nil =>
    intro s s1 hinv _ _ h
    simp only [feed, Option.some.injEq] at h
    rw [← h]; exact hinv
  | cons o rest ih =>
    intro s s1 hinv hty hpos h
    obtain ⟨f, m⟩ := o
    simp only [wellTyped, List.all_cons, Bool.and_eq_true, decide_eq_true_eq] at hty
    simp only [positiveLengths, List.all_cons, Bool.and_eq_true, decide_eq_true_eq] at hpos
    simp only [feed] at h
    cases hp : Put s f m with
    | none => rw [hp] at h; simp at h
    | some t =>
      rw [hp] at h
      exact ih t s1 (Put_offsetLinked s t f m hinv hpos.1 hty.1.1.2 hp) hty.2 hpos.2 h

theorem offsetLinked_New : offsetLinked New :=
  ⟨fun _ => ⟨rfl, by simp [New]⟩, fun h => absurd rfl h⟩

/-- C7 (amended): the sign of the offset and the state.  In every decoder that
`New()` followed by `Put` calls returns, state `CheckingGuideCode` has
`baseLength = -1`, so `baseLength ≥ 0` holds only when the state is not
`CheckingGuideCode`.  When the frame lengths put are Go `int`s that are all
`≥ 1`, the converse holds too: `baseLength ≥ 0` if and only if the state is not
`CheckingGuideCode`. -/
theorem offset_sign_and_state (obs : List (Int × Nat)) (s : AirKiss)
    (hfeed : feed New obs = some s) :
    (s.state = State.CheckingGuideCode → s.baseLength = -1)
    ∧ (0 ≤ s.baseLength → s.state ≠ State.CheckingGuideCode)
    ∧ (wellTyped obs = true → positiveLengths obs = true →
        (0 ≤ s.baseLength ↔ s.state ≠ State.CheckingGuideCode)) := by
  have hg : s.state = State.CheckingGuideCode → s.baseLength = -1 := fun hst =>
    (feed_guideWaiting obs New s guideWaiting_New hfeed hst).2.1
  have hn : 0 ≤ s.baseLength → s.state ≠ State.CheckingGuideCode := by
    intro hb hst
    rw [hg hst] at hb
    omega
  exact ⟨hg, hn, fun hty hpos =>
    ⟨hn, (feed_offsetLinked obs New s offsetLinked_New hty hpos hfeed).2⟩⟩

set_option maxRecDepth 100000 in
/-- C7, two instances: after the guide frames `100, 101, 102, 103` the decoder is
in `CheckingMagicCode` with `baseLength = 99 ≥ 0`; after `100, 101, 102` alone it
is in `CheckingGuideCode` with `baseLength = -1`. -/
theorem offset_sign_and_state_witness :
    feed New (withSeq 1 [100, 101, 102, 103]) = some afterGuideDecoder
    ∧ (0 ≤ afterGuideDecoder.baseLength ↔ afterGuideDecoder.state ≠ State.CheckingGuideCode)
    ∧ feed New (withSeq 30 [100, 101, 102]) = some { guideThreeDecoder with seqNo := 32 }
    ∧ { guideThreeDecoder with seqNo := 32 }.baseLength = -1 :=
  ⟨by decide,
    (offset_sign_and_state (withSeq 1 [100, 101, 102, 103]) afterGuideDecoder (by decide)).2.2
      (by decide) (by decide),
    by decide,
    (offset_sign_and_state (withSeq 30 [100, 101, 102]) { guideThreeDecoder with seqNo := 32 }
      (by decide)).1 (by decide)⟩

end Airkiss
